import Mathlib

/-!
Verification of the cruise MLP evaluator
(`modules/prediction/evaluator/vehicle/cruise_mlp_evaluator.cc`).

The C++ source is shallowly embedded below.  Doubles become rationals
(exact arithmetic; the one genuinely transcendental helper,
`WorldCoordToObjCoord`, is additionally embedded over the reals for the
round-trip theorem, and is abstracted as a coordinate-transform parameter
inside the rational embedding, since no structural claim depends on its
numeric values).  Protobuf message fields with presence bits become
`Option`; the protobuf getter that returns a default value for an unset
field becomes `Option.getD`.  The mutable `std::vector` locals of the
aggregator loop become explicit state threaded through a recursion on the
obstacle's history list.
-/

/-! ## Protobuf data model

Transcribed from the message types the evaluator reads and writes:
`Feature`, its `lane.lane_feature` block, `LaneGraph`, `LaneSequence`,
`LaneSegment`, `LanePoint`, `NearbyObstacle`, and the `Obstacle` wrapper
whose history is most-recent-first. -/

structure Point2D where
  x : ℚ
  y : ℚ
deriving DecidableEq, Repr

/-- Lane-relative attributes of one observation (`lane.lane_feature`). -/
structure LaneFeature where
  angle_diff : ℚ := 0
  lane_l : ℚ := 0
  dist_to_left_boundary : ℚ := 0
  dist_to_right_boundary : ℚ := 0
  lane_turn_type : ℤ := 0
deriving DecidableEq, Repr

/-- One sampled point of a lane (`LanePoint`). -/
structure LanePoint where
  position : Option Point2D := none
  heading : ℚ := 0
  kappa : ℚ := 0
deriving DecidableEq, Repr

/-- One lane segment: an ordered list of lane points. -/
structure LaneSegment where
  lane_point : List LanePoint := []
deriving DecidableEq, Repr

/-- A record about another obstacle positioned relative to a lane
sequence; `s` is the signed longitudinal offset, `l` the lateral one. -/
structure NearbyObstacle where
  id : ℤ := 0
  s : ℚ := 0
  l : ℚ := 0
deriving DecidableEq, Repr

/-- A candidate lane sequence.  `probability` and `time_to_lane_center`
are the output fields the evaluator writes; `mlp_features` models the
`features().mlp_features` repeated field fed by `SaveOfflineFeatures`. -/
structure LaneSequence where
  lane_segment : List LaneSegment := []
  nearby_obstacle : List NearbyObstacle := []
  vehicle_on_lane : Bool := false
  probability : ℚ := 0
  time_to_lane_center : ℚ := 0
  mlp_features : List ℚ := []
deriving DecidableEq, Repr

structure LaneGraph where
  lane_sequence : List LaneSequence := []
deriving DecidableEq, Repr

/-- The `lane` sub-message of a `Feature`: the optional per-observation
lane attributes and the optional lane graph of candidate sequences. -/
structure Lane where
  lane_feature : Option LaneFeature := none
  lane_graph : Option LaneGraph := none
deriving DecidableEq, Repr

/-- One timestamped observation of an obstacle (`Feature` message). -/
structure Feature where
  isInitialized : Bool := true
  timestamp : ℚ := 0
  position : Option Point2D := none
  velocity : Option Point2D := none
  acceleration : Option Point2D := none
  velocity_heading : Option ℚ := none
  speed : ℚ := 0
  length : ℚ := 0
  lane : Option Lane := none
deriving DecidableEq, Repr

/-- The value `obstacle_ptr->latest_feature()` yields when the history is
empty: an uninitialized feature whose getters all return defaults. -/
def emptyFeature : Feature :=
  { isInitialized := false }

/-- An obstacle: an identifier and its observation history, stored
most-recent-first (`feature(0)` is the latest observation). -/
structure Obstacle where
  id : ℤ := 0
  history : List Feature := []
deriving DecidableEq, Repr

def Obstacle.latest_feature (obs : Obstacle) : Feature :=
  obs.history.headD emptyFeature

/-- `Obstacle::timestamp()`: the timestamp of the latest observation. -/
def Obstacle.timestampV (obs : Obstacle) : ℚ :=
  obs.latest_feature.timestamp

/-- Protobuf getter for `position()` (default point when unset). -/
def Feature.positionD (f : Feature) : Point2D :=
  f.position.getD ⟨0, 0⟩

/-- Protobuf getter for `velocity_heading()` (0 when unset). -/
def Feature.velocityHeadingD (f : Feature) : ℚ :=
  f.velocity_heading.getD 0

/-- The `lane().lane_feature()` sub-message, when present. -/
def laneFeatureOf (f : Feature) : Option LaneFeature :=
  f.lane.bind (fun l => l.lane_feature)

/-- `feature.has_lane() && feature.lane().has_lane_feature()`. -/
def hasLaneAttr (f : Feature) : Bool :=
  (laneFeatureOf f).isSome

/-! ## Configuration

The gflags the evaluator reads (their definitions live outside this
translation unit) and the class constants of `cruise_mlp_evaluator.h`
(the header is not part of the sources under study; the spec fixes the
obstacle block at 23 + 9·W values, the interaction block at 8 and the
lane block at 4 values per point, which matches the push counts visible
in the .cc file).  The two trigonometric helpers are carried as
parameters: `w2o` stands for `WorldCoordToObjCoord` and `a2o` for
`WorldAngleToObjAngle`, whose exact real-number definitions appear at
the end of this file; every claim about the extractors is insensitive to
their values and is proved for an arbitrary instantiation. -/

structure Config where
  /-- `FLAGS_cruise_historical_frame_length` (the window length W). -/
  W : ℕ
  /-- `FLAGS_prediction_trajectory_time_length` (the horizon T). -/
  T : ℚ
  /-- `FLAGS_double_precision` (the epsilon guarding the heading rate). -/
  doublePrecision : ℚ
  /-- `FLAGS_default_s_if_no_obstacle_in_lane_sequence`. -/
  defaultS : ℚ
  /-- `FLAGS_default_l_if_no_obstacle_in_lane_sequence`. -/
  defaultL : ℚ
  /-- `FLAGS_prediction_offline_mode`. -/
  offlineMode : Bool
  /-- `LANE_POINTS_SIZE` of `cruise_mlp_evaluator.h`. -/
  lanePoints : ℕ
  /-- Abstracted `WorldCoordToObjCoord` over the rationals. -/
  w2o : ℚ × ℚ → ℚ × ℚ → ℚ → ℚ × ℚ
  /-- Abstracted `WorldAngleToObjAngle` over the rationals. -/
  a2o : ℚ → ℚ → ℚ

/-- The machine epsilon of an IEEE double, the guard on `delta_t`. -/
def dblEpsilon : ℚ := 1 / 2 ^ 52

/-- Modelled from the spec: `OBSTACLE_FEATURE_SIZE` is declared in
`cruise_mlp_evaluator.h`, which is not among the sources; the spec fixes
the obstacle feature block at 23 + 9·W values. -/
def OBSTACLE_FEATURE_SIZE (cfg : Config) : ℕ := 23 + 9 * cfg.W

/-- Modelled from the spec: interaction block of exactly 8 values. -/
def INTERACTION_FEATURE_SIZE : ℕ := 8

/-- Modelled from the spec: 4 values per lane point. -/
def SINGLE_LANE_FEATURE_SIZE : ℕ := 4

/-- The declared total feature-vector length checked by `Evaluate`. -/
def totalFeatureSize (cfg : Config) : ℕ :=
  OBSTACLE_FEATURE_SIZE cfg + INTERACTION_FEATURE_SIZE +
    SINGLE_LANE_FEATURE_SIZE * cfg.lanePoints

/-! ## ComputeMean

`ComputeMean(nums, start, end)` averages `nums[i]` over the indices with
`start <= i <= end && i < nums.size()`, returning 0 when that range is
empty.  The C++ loop walks those indices in order; membership in the
index set is all that matters for the sum. -/

def ComputeMean (nums : List ℚ) (start fin : ℕ) : ℚ :=
  let vals := ((List.range nums.length).filter
      (fun i => start ≤ i && i ≤ fin)).map (fun i => nums.getD i 0)
  if vals.length = 0 then 0 else vals.sum / (vals.length : ℚ)

/-! ## Historical statistics aggregator: the loop state

The mutable locals of `SetObstacleFeatureValues`, split into the
lane-attribute accumulators (pushed once per visited observation that
carries `lane_feature`) and the fixed-length W-frame window arrays. -/

structure LaneStats where
  thetas : List ℚ
  lane_ls : List ℚ
  dist_lbs : List ℚ
  dist_rbs : List ℚ
  lane_types : List ℤ
  speeds : List ℚ
  timestamps : List ℚ
  count : ℕ
deriving DecidableEq, Repr

structure WindowState where
  has_history : List ℚ
  pos_history : List (ℚ × ℚ)
  vel_history : List (ℚ × ℚ)
  acc_history : List (ℚ × ℚ)
  vel_heading_history : List ℚ
  vel_heading_changing_rate_history : List ℚ
  prev_timestamp : ℚ
deriving DecidableEq, Repr

structure AggState where
  stats : LaneStats
  win : WindowState
deriving DecidableEq, Repr

def initLaneStats : LaneStats :=
  ⟨[], [], [], [], [], [], [], 0⟩

def initWindowState (cfg : Config) (obs : Obstacle) : WindowState :=
  { has_history := List.replicate cfg.W 1
    pos_history := List.replicate cfg.W (0, 0)
    vel_history := List.replicate cfg.W (0, 0)
    acc_history := List.replicate cfg.W (0, 0)
    vel_heading_history := List.replicate cfg.W 0
    vel_heading_changing_rate_history := List.replicate cfg.W 0
    prev_timestamp := obs.latest_feature.timestamp }

def initAggState (cfg : Config) (obs : Obstacle) : AggState :=
  ⟨initLaneStats, initWindowState cfg obs⟩

/-- The lane-attribute pushes of the loop body (lines 298 to 311): a
visited observation that carries `lane_feature` appends to the seven
parallel vectors and bumps `count`; otherwise nothing happens. -/
def laneStatPush (f : Feature) (s : LaneStats) : LaneStats :=
  match laneFeatureOf f with
  | some lf =>
      { thetas := s.thetas ++ [lf.angle_diff]
        lane_ls := s.lane_ls ++ [lf.lane_l]
        dist_lbs := s.dist_lbs ++ [lf.dist_to_left_boundary]
        dist_rbs := s.dist_rbs ++ [lf.dist_to_right_boundary]
        lane_types := s.lane_types ++ [lf.lane_turn_type]
        timestamps := s.timestamps ++ [f.timestamp]
        speeds := s.speeds ++ [f.speed]
        count := s.count + 1 }
  | none => s

/-- The relative-coordinate window update of the loop body (lines 313 to
362), for history index `i`.  When `i` is at or past the window length
the body is skipped; when the previous slot was already marked 0 the
current slot is forced 0; otherwise each of position, velocity,
acceleration and velocity heading either fills its array at `i` or marks
`has_history[i]` 0. -/
def windowUpdate (cfg : Config) (curPos : ℚ × ℚ) (curHeading : ℚ)
    (i : ℕ) (f : Feature) (s : WindowState) : WindowState :=
  if cfg.W ≤ i then s
  else if i ≠ 0 ∧ s.has_history.getD (i - 1) 0 = 0 then
    { s with has_history := s.has_history.set i 0 }
  else
    let s :=
      match f.position with
      | some p =>
          { s with pos_history :=
              s.pos_history.set i (cfg.w2o (p.x, p.y) curPos curHeading) }
      | none => { s with has_history := s.has_history.set i 0 }
    let s :=
      match f.velocity with
      | some v =>
          let vEnd := cfg.w2o (v.x, v.y) curPos curHeading
          let vBegin := cfg.w2o (0, 0) curPos curHeading
          { s with vel_history :=
              s.vel_history.set i (vEnd.1 - vBegin.1, vEnd.2 - vBegin.2) }
      | none => { s with has_history := s.has_history.set i 0 }
    let s :=
      match f.acceleration with
      | some a =>
          let aEnd := cfg.w2o (a.x, a.y) curPos curHeading
          let aBegin := cfg.w2o (0, 0) curPos curHeading
          { s with acc_history :=
              s.acc_history.set i (aEnd.1 - aBegin.1, aEnd.2 - aBegin.2) }
      | none => { s with has_history := s.has_history.set i 0 }
    match f.velocity_heading with
    | some vh =>
        let s := { s with vel_heading_history :=
            s.vel_heading_history.set i (cfg.a2o vh curHeading) }
        if i ≠ 0 then
          { s with
            vel_heading_changing_rate_history :=
              s.vel_heading_changing_rate_history.set i
                ((s.vel_heading_history.getD (i - 1) 0 -
                    s.vel_heading_history.getD i 0) /
                  (cfg.doublePrecision + f.timestamp - s.prev_timestamp))
            prev_timestamp := f.timestamp }
        else s
    | none => { s with has_history := s.has_history.set i 0 }

/-- One full iteration of the history loop for a visited observation. -/
def aggStep (cfg : Config) (curPos : ℚ × ℚ) (curHeading : ℚ)
    (i : ℕ) (f : Feature) (s : AggState) : AggState :=
  ⟨laneStatPush f s.stats, windowUpdate cfg curPos curHeading i f s.win⟩

/-- The break condition of the history loop: an initialized observation
older than `obstacle.timestamp() - T` stops the walk. -/
def frameBreaks (cfg : Config) (obs : Obstacle) (f : Feature) : Bool :=
  f.isInitialized && decide (f.timestamp < obs.timestampV - cfg.T)

/-- The history loop of `SetObstacleFeatureValues` (lines 286 to 363):
uninitialized observations are skipped, an initialized observation past
the horizon breaks, every other observation runs the loop body. -/
def aggLoop (cfg : Config) (obs : Obstacle) (curPos : ℚ × ℚ)
    (curHeading : ℚ) : List Feature → ℕ → AggState → AggState
  | [], _, s => s
  | f :: rest, i, s =>
    if f.isInitialized = false then aggLoop cfg obs curPos curHeading rest (i + 1) s
    else if f.timestamp < obs.timestampV - cfg.T then s
    else aggLoop cfg obs curPos curHeading rest (i + 1)
        (aggStep cfg curPos curHeading i f s)

/-- The state the loop leaves behind, starting from the latest
observation's position and heading as the local frame. -/
def aggFinalState (cfg : Config) (obs : Obstacle) : AggState :=
  let cur := obs.latest_feature
  aggLoop cfg obs (cur.positionD.x, cur.positionD.y) cur.velocityHeadingD
    obs.history 0 (initAggState cfg obs)

/-- The 23 summary statistics (lines 371 to 468), in emission order. -/
def obstacleStats (obs : Obstacle) (s : LaneStats) : List ℚ :=
  let curr_size : ℕ := 5
  let hist_size : ℕ := obs.history.length
  let theta_mean := ComputeMean s.thetas 0 (hist_size - 1)
  let theta_filtered := ComputeMean s.thetas 0 (curr_size - 1)
  let lane_l_mean := ComputeMean s.lane_ls 0 (hist_size - 1)
  let lane_l_filtered := ComputeMean s.lane_ls 0 (curr_size - 1)
  let speed_mean := ComputeMean s.speeds 0 (hist_size - 1)
  let time_diff := s.timestamps.headD 0 - s.timestamps.getLastD 0
  let dist_lb_rate := if 1 < s.timestamps.length then
      (s.dist_lbs.headD 0 - s.dist_lbs.getLastD 0) / time_diff else 0
  let dist_rb_rate := if 1 < s.timestamps.length then
      (s.dist_rbs.headD 0 - s.dist_rbs.getLastD 0) / time_diff else 0
  let delta_t := if 1 < s.timestamps.length then
      (s.timestamps.headD 0 - s.timestamps.getLastD 0) /
        ((s.timestamps.length : ℚ) - 1) else 0
  let angle_curr := ComputeMean s.thetas 0 (curr_size - 1)
  let angle_prev := ComputeMean s.thetas curr_size (2 * curr_size - 1)
  let angle_diff := if 2 * curr_size ≤ hist_size then angle_curr - angle_prev else 0
  let lane_l_curr := ComputeMean s.lane_ls 0 (curr_size - 1)
  let lane_l_prev := ComputeMean s.lane_ls curr_size (2 * curr_size - 1)
  let lane_l_diff := if 2 * curr_size ≤ hist_size then lane_l_curr - lane_l_prev else 0
  let angle_diff_rate := if dblEpsilon < delta_t then
      angle_diff / (delta_t * (curr_size : ℚ)) else 0
  let lane_l_diff_rate := if dblEpsilon < delta_t then
      lane_l_diff / (delta_t * (curr_size : ℚ)) else 0
  let acc := if 3 * curr_size ≤ s.speeds.length ∧ dblEpsilon < delta_t then
      (ComputeMean s.speeds 0 (curr_size - 1) -
        ComputeMean s.speeds curr_size (2 * curr_size - 1)) /
        ((curr_size : ℚ) * delta_t) else 0
  let jerk := if 3 * curr_size ≤ s.speeds.length ∧ dblEpsilon < delta_t then
      (ComputeMean s.speeds 0 (curr_size - 1) -
        2 * ComputeMean s.speeds curr_size (2 * curr_size - 1) +
        ComputeMean s.speeds (2 * curr_size) (3 * curr_size - 1)) /
        ((curr_size : ℚ) * (curr_size : ℚ) * delta_t * delta_t) else 0
  let dist_lb_rate_curr := if 2 * curr_size ≤ hist_size ∧ dblEpsilon < delta_t then
      (ComputeMean s.dist_lbs 0 (curr_size - 1) -
        ComputeMean s.dist_lbs curr_size (2 * curr_size - 1)) /
        ((curr_size : ℚ) * delta_t) else 0
  let dist_rb_rate_curr := if 2 * curr_size ≤ hist_size ∧ dblEpsilon < delta_t then
      (ComputeMean s.dist_rbs 0 (curr_size - 1) -
        ComputeMean s.dist_rbs curr_size (2 * curr_size - 1)) /
        ((curr_size : ℚ) * delta_t) else 0
  [theta_filtered, theta_mean, theta_filtered - theta_mean, angle_diff,
    angle_diff_rate,
    lane_l_filtered, lane_l_mean, lane_l_filtered - lane_l_mean, lane_l_diff,
    lane_l_diff_rate,
    speed_mean, acc, jerk,
    s.dist_lbs.headD 0, dist_lb_rate, dist_lb_rate_curr,
    s.dist_rbs.headD 0, dist_rb_rate, dist_rb_rate_curr,
    if s.lane_types.headD 0 = 0 then 1 else 0,
    if s.lane_types.headD 0 = 1 then 1 else 0,
    if s.lane_types.headD 0 = 2 then 1 else 0,
    if s.lane_types.headD 0 = 3 then 1 else 0]

/-- The nine per-frame window values, in push order (lines 509 to 517). -/
def windowChunk (s : WindowState) (i : ℕ) : List ℚ :=
  [s.has_history.getD i 0,
    (s.pos_history.getD i (0, 0)).1, (s.pos_history.getD i (0, 0)).2,
    (s.vel_history.getD i (0, 0)).1, (s.vel_history.getD i (0, 0)).2,
    (s.acc_history.getD i (0, 0)).1, (s.acc_history.getD i (0, 0)).2,
    s.vel_heading_history.getD i 0,
    s.vel_heading_changing_rate_history.getD i 0]

/-- The flattened window emission loop (lines 508 to 518), frames 0
through W-1 in order. -/
def windowValues (s : WindowState) : ℕ → List ℚ
  | 0 => []
  | w + 1 => windowValues s w ++ windowChunk s w

/-- `CruiseMLPEvaluator::SetObstacleFeatureValues`: empty when no visited
observation carried lane attributes, otherwise the 23 statistics followed
by the flattened W-frame window. -/
def SetObstacleFeatureValues (cfg : Config) (obs : Obstacle) : List ℚ :=
  let s := aggFinalState cfg obs
  if s.stats.count = 0 then []
  else obstacleStats obs s.stats ++ windowValues s.win cfg.W

/-! ## Interaction extractor -/

/-- The tracked forward or backward nearby obstacle; `id = none` models
`!has_id()` on the default-initialized local proto. -/
structure TrackedNearby where
  id : Option ℤ
  s : ℚ
  l : ℚ
deriving DecidableEq, Repr

/-- The scan of the `nearby_obstacle` list (lines 533 to 547): a negative
`s` competes for the backward slot under strict `>`, a non-negative `s`
for the forward slot under strict `<`. -/
def nearbyScanStep (p : TrackedNearby × TrackedNearby) (nb : NearbyObstacle) :
    TrackedNearby × TrackedNearby :=
  if nb.s < 0 then
    if nb.s > p.2.s then (p.1, ⟨some nb.id, nb.s, nb.l⟩) else p
  else
    if nb.s < p.1.s then (⟨some nb.id, nb.s, nb.l⟩, p.2) else p

/-- The two emitted values looked up from the obstacles container for a
found nearby obstacle, else the zero pair (lines 554 to 563).  The
container is abstracted as a map from obstacle id to that obstacle's
latest feature. -/
def nearbyTail (container : ℤ → Feature) (t : TrackedNearby) : List ℚ :=
  match t.id with
  | none => [0, 0]
  | some theId => [(container theId).length, (container theId).speed]

/-- `CruiseMLPEvaluator::SetInteractionFeatureValues`. -/
def SetInteractionFeatureValues (cfg : Config) (container : ℤ → Feature)
    (seq : LaneSequence) : List ℚ :=
  let fwdInit : TrackedNearby := ⟨none, cfg.defaultS, cfg.defaultL⟩
  let bwdInit : TrackedNearby := ⟨none, -cfg.defaultS, cfg.defaultL⟩
  let fb := seq.nearby_obstacle.foldl nearbyScanStep (fwdInit, bwdInit)
  [fb.1.s, fb.1.l] ++ nearbyTail container fb.1 ++
    [fb.2.s, fb.2.l] ++ nearbyTail container fb.2

/-! ## Lane geometry extractor -/

/-- The collection loops of `SetLaneFeatureValues` (lines 597 to 626):
segments in order, points within a segment in order, stopping once
`4 * LANE_POINTS_SIZE` values have been gathered; a point without a
position is skipped; a kept point contributes
`[lateral, longitudinal, relative angle, curvature]`. -/
def collectLaneValues (cfg : Config) (curPos : ℚ × ℚ) (heading : ℚ)
    (segs : List LaneSegment) : List ℚ :=
  segs.foldl (fun acc seg =>
    if SINGLE_LANE_FEATURE_SIZE * cfg.lanePoints ≤ acc.length then acc
    else seg.lane_point.foldl (fun acc2 lp =>
      if SINGLE_LANE_FEATURE_SIZE * cfg.lanePoints ≤ acc2.length then acc2
      else match lp.position with
        | none => acc2
        | some pos =>
            let rel := cfg.w2o (pos.x, pos.y) curPos heading
            let ang := cfg.a2o lp.heading heading
            acc2 ++ [rel.2, rel.1, ang, lp.kappa]) acc) []

/-- One pass of the extrapolation `while` loop body (lines 630 to 645),
kept verbatim: the new values are read at offsets `size-5`, `size-10`,
`size-4`, `size-9` and `size-3` from the end of the vector. -/
def extrapolateOnce (fv : List ℚ) : List ℚ :=
  let size := fv.length
  fv ++ [2 * fv.getD (size - 5) 0 - fv.getD (size - 10) 0,
    2 * fv.getD (size - 4) 0 - fv.getD (size - 9) 0,
    fv.getD (size - 3) 0, 0]

/-- The extrapolation `while` loop, driven by explicit fuel.  Each pass
appends four values and the loop stops as soon as the length reaches
`cap`, so starting from a length of at least 10 the loop runs fewer than
`cap` times; `cap` units of fuel therefore never run out before the
loop's own condition stops it. -/
def extrapolateLoop (cap : ℕ) : ℕ → List ℚ → List ℚ
  | 0, fv => fv
  | fuel + 1, fv =>
    if 10 ≤ fv.length ∧ fv.length < cap then
      extrapolateLoop cap fuel (extrapolateOnce fv)
    else fv

/-- `CruiseMLPEvaluator::SetLaneFeatureValues`. -/
def SetLaneFeatureValues (cfg : Config) (obs : Obstacle)
    (seq : LaneSequence) : List ℚ :=
  let feature := obs.latest_feature
  if feature.isInitialized = false then []
  else match feature.position with
    | none => []
    | some p =>
        let heading := feature.velocityHeadingD
        let collected := collectLaneValues cfg (p.x, p.y) heading seq.lane_segment
        extrapolateLoop (SINGLE_LANE_FEATURE_SIZE * cfg.lanePoints)
          (SINGLE_LANE_FEATURE_SIZE * cfg.lanePoints) collected

/-! ## Orchestrator -/

/-- `CruiseMLPEvaluator::SaveOfflineFeatures`: append the whole feature
vector onto the sequence's `mlp_features` record. -/
def SaveOfflineFeatures (seq : LaneSequence) (fv : List ℚ) : LaneSequence :=
  { seq with mlp_features := seq.mlp_features ++ fv }

/-- `CruiseMLPEvaluator::ExtractFeatureValues`: the three blocks are
appended in order, each only after its own exact-size check; in offline
mode a fully assembled vector is also persisted onto the sequence.
Returns the assembled vector together with the (possibly updated)
sequence. -/
def ExtractFeatureValues (cfg : Config) (container : ℤ → Feature)
    (obs : Obstacle) (seq : LaneSequence) : List ℚ × LaneSequence :=
  let obstacle_feature_values := SetObstacleFeatureValues cfg obs
  if obstacle_feature_values.length ≠ OBSTACLE_FEATURE_SIZE cfg then ([], seq)
  else
    let fv := obstacle_feature_values
    let interaction_feature_values := SetInteractionFeatureValues cfg container seq
    if interaction_feature_values.length ≠ INTERACTION_FEATURE_SIZE then (fv, seq)
    else
      let fv := fv ++ interaction_feature_values
      let lane_feature_values := SetLaneFeatureValues cfg obs seq
      if lane_feature_values.length ≠ SINGLE_LANE_FEATURE_SIZE * cfg.lanePoints then
        (fv, seq)
      else
        let fv := fv ++ lane_feature_values
        if cfg.offlineMode then (fv, SaveOfflineFeatures seq fv) else (fv, seq)

/-- The two loaded models, abstracted at their call boundary: each takes
the lane matrix slice and the obstacle matrix slice and yields the pair
(output(0,0), output(0,1)) = (probability, finish time). -/
structure Models where
  go : List ℚ → List ℚ → ℚ × ℚ
  cutin : List ℚ → List ℚ → ℚ × ℚ

/-- The per-sequence body of `Evaluate`'s loop (lines 141 to 173).  The
second component records the model dispatch: `none` when no model ran,
`some b` when a model ran with `b = vehicle_on_lane` (true selects the
go model, false the cut-in model). -/
def evaluateSequence (cfg : Config) (models : Models) (container : ℤ → Feature)
    (obs : Obstacle) (seq : LaneSequence) : LaneSequence × Option Bool :=
  let r := ExtractFeatureValues cfg container obs seq
  if r.1.length ≠ totalFeatureSize cfg then
    ({ r.2 with probability := 0 }, none)
  else if cfg.offlineMode then (r.2, none)
  else
    let obs_feature_mat := r.1.take (OBSTACLE_FEATURE_SIZE cfg)
    let lane_feature_mat :=
      r.1.drop (OBSTACLE_FEATURE_SIZE cfg + INTERACTION_FEATURE_SIZE)
    let model_output := if seq.vehicle_on_lane then
        models.go lane_feature_mat obs_feature_mat
      else models.cutin lane_feature_mat obs_feature_mat
    ({ r.2 with
        probability := model_output.1
        time_to_lane_center := model_output.2 }, some seq.vehicle_on_lane)

/-- The candidate lane sequences of the obstacle's latest observation. -/
def Obstacle.laneSequences (obs : Obstacle) : List LaneSequence :=
  ((obs.latest_feature.lane.bind (fun l => l.lane_graph)).getD ⟨[]⟩).lane_sequence

/-- Write the evaluated sequences back into the latest observation's
lane graph (the in-place mutation through `mutable_lane_sequence`). -/
def Obstacle.setSequences (obs : Obstacle) (seqs : List LaneSequence) : Obstacle :=
  match obs.history with
  | [] => obs
  | f :: rest =>
    match f.lane with
    | none => obs
    | some li =>
      match li.lane_graph with
      | none => obs
      | some _ =>
          { obs with history :=
              { f with lane := some { li with lane_graph := some ⟨seqs⟩ } } :: rest }

/-- `CruiseMLPEvaluator::Evaluate`.  Returns the updated obstacle, the
per-sequence dispatch record, and the list of insertions into the
offline feature-output sink (`FeatureOutput::Insert`). -/
def Evaluate (cfg : Config) (models : Models) (container : ℤ → Feature)
    (obs : Obstacle) : Obstacle × List (Option Bool) × List Feature :=
  let latest := obs.latest_feature
  if latest.isInitialized = false then (obs, [], [])
  else match latest.lane with
  | none => (obs, [], [])
  | some li =>
    match li.lane_graph with
    | none => (obs, [], [])
    | some lg =>
      if lg.lane_sequence.length = 0 then (obs, [], [])
      else
        let results := lg.lane_sequence.map
          (fun seq => evaluateSequence cfg models container obs seq)
        let obs2 := obs.setSequences (results.map Prod.fst)
        (obs2, results.map Prod.snd,
          if cfg.offlineMode then [obs2.latest_feature] else [])

/-! ## The geometry transform over the reals

`WorldCoordToObjCoord` (lines 87 to 97 of the source) uses `sqrt`,
`atan2`, `cos` and `sin`; it is embedded here exactly, over the reals.
`atan2 y x` is the argument of the complex number with real part `x` and
imaginary part `y`, which matches the C library function on every input,
including `atan2 0 0 = 0`. -/

noncomputable def atan2 (y x : ℝ) : ℝ := Complex.arg ⟨x, y⟩

noncomputable def WorldCoordToObjCoord (input_world_coord obj_world_coord : ℝ × ℝ)
    (obj_world_angle : ℝ) : ℝ × ℝ :=
  let x_diff := input_world_coord.1 - obj_world_coord.1
  let y_diff := input_world_coord.2 - obj_world_coord.2
  let rho := Real.sqrt (x_diff * x_diff + y_diff * y_diff)
  let theta := atan2 y_diff x_diff - obj_world_angle
  (Real.cos theta * rho, Real.sin theta * rho)

/-- The inverse transform named by the spec: rotate by the object's
heading, then translate by the object's position. -/
noncomputable def ObjCoordToWorldCoord (q obj_world_coord : ℝ × ℝ)
    (obj_world_angle : ℝ) : ℝ × ℝ :=
  (obj_world_coord.1 + q.1 * Real.cos obj_world_angle - q.2 * Real.sin obj_world_angle,
    obj_world_coord.2 + q.1 * Real.sin obj_world_angle + q.2 * Real.cos obj_world_angle)

theorem sqrt_mul_cos_atan2 (x y : ℝ) :
    Real.sqrt (x * x + y * y) * Real.cos (atan2 y x) = x := by
  by_cases h : (⟨x, y⟩ : ℂ) = 0
  · have hx : x = 0 := congrArg Complex.re h
    have hy : y = 0 := congrArg Complex.im h
    simp [hx, hy]
  · have hpos : 0 < x * x + y * y := by
      rcases not_and_or.mp (fun hc => h (Complex.ext hc.1 hc.2)) with hx | hy
      · nlinarith [mul_self_pos.mpr hx, mul_self_nonneg y]
      · nlinarith [mul_self_pos.mpr hy, mul_self_nonneg x]
    have hs : Real.sqrt (x * x + y * y) ≠ 0 := by
      exact ne_of_gt (Real.sqrt_pos.mpr hpos)
    rw [atan2, Complex.cos_arg h]
    have habs : Complex.abs ⟨x, y⟩ = Real.sqrt (x * x + y * y) := by
      rw [Complex.abs_apply, Complex.normSq_mk]
    rw [habs]
    field_simp

theorem sqrt_mul_sin_atan2 (x y : ℝ) :
    Real.sqrt (x * x + y * y) * Real.sin (atan2 y x) = y := by
  by_cases h : (⟨x, y⟩ : ℂ) = 0
  · have hx : x = 0 := congrArg Complex.re h
    have hy : y = 0 := congrArg Complex.im h
    simp [hx, hy]
  · have hpos : 0 < x * x + y * y := by
      rcases not_and_or.mp (fun hc => h (Complex.ext hc.1 hc.2)) with hx | hy
      · nlinarith [mul_self_pos.mpr hx, mul_self_nonneg y]
      · nlinarith [mul_self_pos.mpr hy, mul_self_nonneg x]
    have hs : Real.sqrt (x * x + y * y) ≠ 0 := by
      exact ne_of_gt (Real.sqrt_pos.mpr hpos)
    rw [atan2, Complex.sin_arg]
    have habs : Complex.abs ⟨x, y⟩ = Real.sqrt (x * x + y * y) := by
      rw [Complex.abs_apply, Complex.normSq_mk]
    rw [habs]
    field_simp

/-- C9: applying the inverse transform (rotate by the heading, then
translate by the origin) to `WorldCoordToObjCoord p o a` recovers `p`,
exactly, over real arithmetic. -/
theorem worldCoordToObjCoord_roundTrip (p o : ℝ × ℝ) (a : ℝ) :
    ObjCoordToWorldCoord (WorldCoordToObjCoord p o a) o a = p := by
  obtain ⟨px, py⟩ := p
  obtain ⟨ox, oy⟩ := o
  simp only [WorldCoordToObjCoord, ObjCoordToWorldCoord]
  have key1 := sqrt_mul_cos_atan2 (px - ox) (py - oy)
  have key2 := sqrt_mul_sin_atan2 (px - ox) (py - oy)
  have hpyth := Real.sin_sq_add_cos_sq a
  have hcos := Real.cos_sub (atan2 (py - oy) (px - ox)) a
  have hsin := Real.sin_sub (atan2 (py - oy) (px - ox)) a
  apply Prod.ext
  · simp only [hcos, hsin]
    linear_combination key1 +
      (Real.sqrt ((px - ox) * (px - ox) + (py - oy) * (py - oy)) *
        Real.cos (atan2 (py - oy) (px - ox))) * hpyth
  · simp only [hcos, hsin]
    linear_combination key2 +
      (Real.sqrt ((px - ox) * (px - ox) + (py - oy) * (py - oy)) *
        Real.sin (atan2 (py - oy) (px - ox))) * hpyth

/-! ## List access helpers -/

theorem getD_set_self {α : Type} (l : List α) (i : ℕ) (a d : α) (h : i < l.length) :
    (l.set i a).getD i d = a := by
  simp [List.getD_eq_getElem?_getD, List.getElem?_set_self, h]

theorem getD_set_ne {α : Type} (l : List α) {i j : ℕ} (a d : α) (h : i ≠ j) :
    (l.set i a).getD j d = l.getD j d := by
  simp [List.getD_eq_getElem?_getD, List.getElem?_set_ne h]

theorem getD_replicate {α : Type} (x d : α) (n i : ℕ) :
    (List.replicate n x).getD i d = if i < n then x else d := by
  simp only [List.getD_eq_getElem?_getD, List.getElem?_replicate]
  split <;> simp_all

theorem getD_append_lt {α : Type} (l1 l2 : List α) (n : ℕ) (d : α) (h : n < l1.length) :
    (l1 ++ l2).getD n d = l1.getD n d := by
  simp [List.getD_eq_getElem?_getD, List.getElem?_append, h]

theorem getD_of_length_le {α : Type} (l : List α) (n : ℕ) (d : α) (h : l.length ≤ n) :
    l.getD n d = d := by
  simp [List.getD_eq_getElem?_getD, List.getElem?_eq_none h]

theorem getD_map_of_lt {α β : Type} (l : List α) (f : α → β) (i : ℕ) (d : β) (d' : α)
    (h : i < l.length) : (l.map f).getD i d = f (l.getD i d') := by
  simp [List.getD_eq_getElem?_getD, List.getElem?_map, List.getElem?_eq_getElem h,
    List.getD_eq_getElem l d' h]

/-! ## Write locality of the window update -/

theorem windowUpdate_has_length (cfg : Config) (cp : ℚ × ℚ) (ch : ℚ)
    (i : ℕ) (f : Feature) (s : WindowState) :
    (windowUpdate cfg cp ch i f s).has_history.length = s.has_history.length := by
  rcases hp : f.position with _ | p <;> rcases hv : f.velocity with _ | v <;>
    rcases ha : f.acceleration with _ | acc <;> rcases hh : f.velocity_heading with _ | vh <;>
      simp only [windowUpdate, hp, hv, ha, hh] <;>
      (repeat' split) <;> simp [List.length_set]

theorem windowUpdate_has_getD_ne (cfg : Config) (cp : ℚ × ℚ) (ch : ℚ)
    (i : ℕ) (f : Feature) (s : WindowState) {k : ℕ} (h : i ≠ k) :
    (windowUpdate cfg cp ch i f s).has_history.getD k 0 = s.has_history.getD k 0 := by
  rcases hp : f.position with _ | p <;> rcases hv : f.velocity with _ | v <;>
    rcases ha : f.acceleration with _ | acc <;> rcases hh : f.velocity_heading with _ | vh <;>
      simp only [windowUpdate, hp, hv, ha, hh] <;>
      (repeat' split) <;> simp [List.getD_eq_getElem?_getD, List.getElem?_set_ne h]

/-- The four presence bits the window checks before using a frame. -/
def usableFields (f : Feature) : Bool :=
  f.position.isSome && f.velocity.isSome && f.acceleration.isSome &&
    f.velocity_heading.isSome

theorem windowUpdate_has_getD_self (cfg : Config) (cp : ℚ × ℚ) (ch : ℚ)
    (i : ℕ) (f : Feature) (s : WindowState) (hiW : i < cfg.W)
    (hlen : s.has_history.length = cfg.W) :
    (windowUpdate cfg cp ch i f s).has_history.getD i 0 =
      if i ≠ 0 ∧ s.has_history.getD (i - 1) 0 = 0 then 0
      else if usableFields f then s.has_history.getD i 0 else 0 := by
  have hi : i < s.has_history.length := by omega
  rcases hp : f.position with _ | p <;> rcases hv : f.velocity with _ | v <;>
    rcases ha : f.acceleration with _ | acc <;> rcases hh : f.velocity_heading with _ | vh <;>
      simp only [windowUpdate, usableFields, hp, hv, ha, hh] <;>
      (repeat' split) <;>
      first
        | omega
        | simp_all [List.getD_eq_getElem?_getD, List.getElem?_set_self, List.length_set]

/-! ## The loop, frame by frame -/

def aggCurPos (obs : Obstacle) : ℚ × ℚ :=
  (obs.latest_feature.positionD.x, obs.latest_feature.positionD.y)

def aggCurHeading (obs : Obstacle) : ℚ :=
  obs.latest_feature.velocityHeadingD

theorem aggFinalState_eq (cfg : Config) (obs : Obstacle) :
    aggFinalState cfg obs =
      aggLoop cfg obs (aggCurPos obs) (aggCurHeading obs) obs.history 0
        (initAggState cfg obs) := rfl

/-- Indices below the running index are never written again. -/
theorem aggLoop_has_lt (cfg : Config) (obs : Obstacle) (cp : ℚ × ℚ) (ch : ℚ) :
    ∀ (frames : List Feature) (j : ℕ) (s : AggState) {k : ℕ}, k < j →
    (aggLoop cfg obs cp ch frames j s).win.has_history.getD k 0 =
      s.win.has_history.getD k 0 := by
  intro frames
  induction frames with
  | nil => intro j s k hk; rfl
  | cons f rest ih =>
    intro j s k hk
    by_cases h1 : f.isInitialized = false
    · simp only [aggLoop]
      rw [if_pos h1]
      exact ih (j + 1) s (by omega)
    · by_cases h2 : f.timestamp < obs.timestampV - cfg.T
      · simp only [aggLoop]
        rw [if_neg h1, if_pos h2]
      · simp only [aggLoop]
        rw [if_neg h1, if_neg h2]
        rw [ih (j + 1) _ (by omega)]
        exact windowUpdate_has_getD_ne cfg cp ch j f s.win (by omega)

theorem aggLoop_has_length (cfg : Config) (obs : Obstacle) (cp : ℚ × ℚ) (ch : ℚ) :
    ∀ (frames : List Feature) (j : ℕ) (s : AggState),
    (aggLoop cfg obs cp ch frames j s).win.has_history.length =
      s.win.has_history.length := by
  intro frames
  induction frames with
  | nil => intro j s; rfl
  | cons f rest ih =>
    intro j s
    by_cases h1 : f.isInitialized = false
    · simp only [aggLoop]
      rw [if_pos h1]
      exact ih (j + 1) s
    · by_cases h2 : f.timestamp < obs.timestampV - cfg.T
      · simp only [aggLoop]
        rw [if_neg h1, if_pos h2]
      · simp only [aggLoop]
        rw [if_neg h1, if_neg h2]
        rw [ih (j + 1) _]
        exact windowUpdate_has_length cfg cp ch j f s.win

/-- The state after the loop has consumed exactly the first `m` history
frames, all of them initialized and inside the horizon. -/
def prefixState (cfg : Config) (obs : Obstacle) : ℕ → AggState
  | 0 => initAggState cfg obs
  | m + 1 => aggStep cfg (aggCurPos obs) (aggCurHeading obs) m
      (obs.history.getD m emptyFeature) (prefixState cfg obs m)

theorem prefixState_has_length (cfg : Config) (obs : Obstacle) :
    ∀ m, (prefixState cfg obs m).win.has_history.length = cfg.W := by
  intro m
  induction m with
  | zero => simp [prefixState, initAggState, initWindowState]
  | succ m ih =>
    simp only [prefixState, aggStep]
    rw [windowUpdate_has_length]
    exact ih

theorem prefixState_has_untouched (cfg : Config) (obs : Obstacle) :
    ∀ m k, m ≤ k →
    (prefixState cfg obs m).win.has_history.getD k 0 =
      if k < cfg.W then 1 else 0 := by
  intro m
  induction m with
  | zero =>
    intro k _
    simp only [prefixState, initAggState, initWindowState]
    exact getD_replicate 1 0 cfg.W k
  | succ m ih =>
    intro k hk
    simp only [prefixState, aggStep]
    rw [windowUpdate_has_getD_ne cfg _ _ m _ _ (by omega)]
    exact ih k (by omega)

/-- Running the loop from the start equals running it from frame `m`
out of the `m`-step prefix state, provided the first `m` frames are all
initialized and inside the time horizon. -/
theorem aggLoop_prefix_run (cfg : Config) (obs : Obstacle) :
    ∀ m, (∀ q, q < m →
      (obs.history.getD q emptyFeature).isInitialized = true ∧
      ¬((obs.history.getD q emptyFeature).timestamp < obs.timestampV - cfg.T)) →
    aggFinalState cfg obs =
      aggLoop cfg obs (aggCurPos obs) (aggCurHeading obs)
        (obs.history.drop m) m (prefixState cfg obs m) := by
  intro m
  induction m with
  | zero => intro _; rfl
  | succ m ih =>
    intro hp
    have hm := hp m (by omega)
    have hmlen : m < obs.history.length := by
      by_contra hc
      have : obs.history.getD m emptyFeature = emptyFeature :=
        getD_of_length_le _ _ _ (by omega)
      rw [this] at hm
      simp [emptyFeature] at hm
    have hdrop : obs.history.drop m =
        obs.history.getD m emptyFeature :: obs.history.drop (m + 1) := by
      rw [List.getD_eq_getElem _ _ hmlen]
      exact List.drop_eq_getElem_cons hmlen
    have h1 : ¬((obs.history.getD m emptyFeature).isInitialized = false) := by
      rw [hm.1]
      simp
    rw [ih (fun q hq => hp q (by omega)), hdrop]
    simp only [aggLoop]
    rw [if_neg h1, if_neg hm.2]
    rfl

/-- A window index whose frame the loop never processes keeps the value
the state held when the loop reached it. -/
theorem aggLoop_has_unvisited (cfg : Config) (obs : Obstacle) (cp : ℚ × ℚ) (ch : ℚ) :
    ∀ (frames : List Feature) (j : ℕ) (s : AggState) (r : ℕ),
    ¬(r < frames.length ∧
        (frames.getD r emptyFeature).isInitialized = true ∧
        ∀ q, q ≤ r → frameBreaks cfg obs (frames.getD q emptyFeature) = false) →
    (aggLoop cfg obs cp ch frames j s).win.has_history.getD (j + r) 0 =
      s.win.has_history.getD (j + r) 0 := by
  intro frames
  induction frames with
  | nil => intro j s r _; rfl
  | cons f rest ih =>
    intro j s r hnp
    by_cases h1 : f.isInitialized = false
    · simp only [aggLoop]
      rw [if_pos h1]
      match r with
      | 0 => exact aggLoop_has_lt cfg obs cp ch rest (j + 1) s (by omega)
      | r' + 1 =>
        have : j + (r' + 1) = (j + 1) + r' := by omega
        rw [this]
        apply ih (j + 1) s r'
        intro ⟨ha, hb, hc⟩
        exact hnp ⟨by simpa using Nat.succ_lt_succ ha,
          by simpa [List.getD_cons_succ] using hb,
          fun q hq => by
            match q with
            | 0 => simp [frameBreaks, h1]
            | q' + 1 => simpa [List.getD_cons_succ] using hc q' (by omega)⟩
    · by_cases h2 : f.timestamp < obs.timestampV - cfg.T
      · simp only [aggLoop]
        rw [if_neg h1, if_pos h2]
      · simp only [aggLoop]
        rw [if_neg h1, if_neg h2]
        match r with
        | 0 =>
          exact absurd ⟨by simp, by simpa using h1, fun q hq => by
            interval_cases q
            simp [frameBreaks, h2]⟩ hnp
        | r' + 1 =>
          have hj : j + (r' + 1) = (j + 1) + r' := by omega
          rw [hj]
          rw [ih (j + 1) _ r' (fun ⟨ha, hb, hc⟩ => hnp
            ⟨by simpa using Nat.succ_lt_succ ha,
              by simpa [List.getD_cons_succ] using hb,
              fun q hq => by
                match q with
                | 0 => simp [frameBreaks, h2]
                | q' + 1 => simpa [List.getD_cons_succ] using hc q' (by omega)⟩)]
          exact windowUpdate_has_getD_ne cfg cp ch j f s.win (by omega)

/-- Every frame up to index `i` carries all four usable fields. -/
def allUsableUpTo (obs : Obstacle) (i : ℕ) : Bool :=
  (List.range (i + 1)).all (fun j => usableFields (obs.history.getD j emptyFeature))

/-- Frame `j` is processed by the loop's window section: it exists, is
initialized, and no frame at or before it triggers the horizon break. -/
def processedB (cfg : Config) (obs : Obstacle) (j : ℕ) : Bool :=
  decide (j < obs.history.length) &&
    (obs.history.getD j emptyFeature).isInitialized &&
    (List.range (j + 1)).all
      (fun q => !frameBreaks cfg obs (obs.history.getD q emptyFeature))

theorem processedB_iff (cfg : Config) (obs : Obstacle) (i : ℕ) :
    processedB cfg obs i = true ↔
      (i < obs.history.length ∧
        (obs.history.getD i emptyFeature).isInitialized = true ∧
        ∀ q, q ≤ i → frameBreaks cfg obs (obs.history.getD q emptyFeature) = false) := by
  simp [processedB, List.all_eq_true, List.mem_range, Nat.lt_succ_iff, and_assoc]

theorem allUsableUpTo_succ (obs : Obstacle) (i : ℕ) :
    allUsableUpTo obs (i + 1) =
      (allUsableUpTo obs i && usableFields (obs.history.getD (i + 1) emptyFeature)) := by
  simp [allUsableUpTo, List.range_succ, Bool.and_assoc]

theorem prefixState_has_pattern (cfg : Config) (obs : Obstacle) :
    ∀ i, i < cfg.W → (∀ j, j ≤ i → processedB cfg obs j = true) →
    (prefixState cfg obs (i + 1)).win.has_history.getD i 0 =
      if allUsableUpTo obs i then 1 else 0 := by
  intro i
  induction i with
  | zero =>
    intro hW _
    show (windowUpdate cfg (aggCurPos obs) (aggCurHeading obs) 0
        (obs.history.getD 0 emptyFeature)
        (prefixState cfg obs 0).win).has_history.getD 0 0 = _
    rw [windowUpdate_has_getD_self cfg _ _ 0 _ _ hW (prefixState_has_length cfg obs 0)]
    rw [if_neg (by simp)]
    rw [prefixState_has_untouched cfg obs 0 0 (by omega), if_pos hW]
    rw [show allUsableUpTo obs 0 = usableFields (obs.history.getD 0 emptyFeature) from by
      simp [allUsableUpTo, List.range_succ, List.range_zero]]
  | succ i ih =>
    intro hW hj
    show (windowUpdate cfg (aggCurPos obs) (aggCurHeading obs) (i + 1)
        (obs.history.getD (i + 1) emptyFeature)
        (prefixState cfg obs (i + 1)).win).has_history.getD (i + 1) 0 = _
    rw [windowUpdate_has_getD_self cfg _ _ (i + 1) _ _ hW
      (prefixState_has_length cfg obs (i + 1))]
    simp only [Nat.add_sub_cancel]
    rw [ih (by omega) (fun j hji => hj j (by omega))]
    rw [prefixState_has_untouched cfg obs (i + 1) (i + 1) (by omega), if_pos hW]
    rw [allUsableUpTo_succ]
    by_cases hA : allUsableUpTo obs i = true
    · rw [if_pos hA]
      rw [if_neg (by norm_num)]
      simp [hA]
    · have hA0 : allUsableUpTo obs i = false := by
        revert hA
        cases allUsableUpTo obs i <;> simp
      rw [hA0]
      rw [if_pos (by norm_num)]
      simp

/-- Claim C3 as stated: inside the W-frame window, `has_data[i]` is 1
exactly when frame `i` was visited and carried usable position,
velocity, acceleration and velocity heading, and a 0 is never followed
by a 1. -/
def C3claim (cfg : Config) (obs : Obstacle) : Prop :=
  (∀ i, i < cfg.W →
    ((aggFinalState cfg obs).win.has_history.getD i 0 = 1 ↔
      (processedB cfg obs i &&
        usableFields (obs.history.getD i emptyFeature)) = true)) ∧
  (∀ i j, i < j → j < cfg.W →
    (aggFinalState cfg obs).win.has_history.getD i 0 = 0 →
    (aggFinalState cfg obs).win.has_history.getD j 0 = 0)

/-- C3 (amended): for an index `i` of the window, (a) if frames 0
through `i` are all visited then `has_data[i]` is 1 exactly when every
frame up to `i` carried usable position, velocity, acceleration and
heading, which in particular forbids a gap inside the fully visited
prefix; and (b) if frame `i` itself is never visited, `has_data[i]`
keeps its initialized value 1. -/
theorem hasData_window_characterization (cfg : Config) (obs : Obstacle) (i : ℕ)
    (hiW : i < cfg.W) :
    ((∀ j, j ≤ i → processedB cfg obs j = true) →
      (aggFinalState cfg obs).win.has_history.getD i 0 =
        if allUsableUpTo obs i then 1 else 0) ∧
    (processedB cfg obs i = false →
      (aggFinalState cfg obs).win.has_history.getD i 0 = 1) := by
  constructor
  · intro hproc
    have hrun := aggLoop_prefix_run cfg obs (i + 1) (fun q hq => by
      have hq' := (processedB_iff cfg obs q).mp (hproc q (by omega))
      refine ⟨hq'.2.1, ?_⟩
      have hb := hq'.2.2 q (by omega)
      simp only [frameBreaks, hq'.2.1, Bool.true_and] at hb
      exact of_decide_eq_false hb)
    rw [hrun, aggLoop_has_lt cfg obs _ _ _ (i + 1) _ (by omega)]
    exact prefixState_has_pattern cfg obs i hiW hproc
  · intro hnotproc
    have h0 := aggLoop_has_unvisited cfg obs (aggCurPos obs) (aggCurHeading obs)
      obs.history 0 (initAggState cfg obs) i (fun hc => by
        have ht : processedB cfg obs i = true := (processedB_iff cfg obs i).mpr hc
        rw [hnotproc] at ht
        cases ht)
    rw [aggFinalState_eq]
    rw [Nat.zero_add] at h0
    rw [h0]
    simp only [initAggState, initWindowState]
    rw [getD_replicate, if_pos hiW]

set_option allowUnsafeReducibility true

attribute [semireducible] Rat.add Rat.sub Rat.mul Rat.div Rat.inv

def idPointTransform : ℚ × ℚ → ℚ × ℚ → ℚ → ℚ × ℚ := fun p _ _ => p

def idAngleTransform : ℚ → ℚ → ℚ := fun a _ => a

/-- A window of length 2 for the C3 scenario. -/
def cfgC3 : Config :=
  { W := 2, T := 1, doublePrecision := 1 / 1000, defaultS := 10, defaultL := 1,
    offlineMode := false, lanePoints := 1,
    w2o := idPointTransform, a2o := idAngleTransform }

/-- An observation carrying position, velocity, acceleration and
velocity heading. -/
def fullFrame : Feature :=
  { position := some ⟨0, 0⟩, velocity := some ⟨0, 0⟩,
    acceleration := some ⟨0, 0⟩, velocity_heading := some 0 }

/-- A single-observation history: window slot 1 has no frame at all. -/
def obsC3 : Obstacle := { id := 1, history := [fullFrame] }

/-- C3 counterexample: with a 2-slot window and a single-frame history,
slot 1 holds 1 although frame 1 was never visited, so the claimed
equivalence fails at the concrete input `obsC3`. -/
theorem C3_counterexample : ¬ C3claim cfgC3 obsC3 := by
  intro h
  have h1 := (h.1 1 (by decide)).mp (by decide)
  exact absurd h1 (by decide)

theorem hasData_window_characterization_witness :
    (aggFinalState cfgC3 obsC3).win.has_history.getD 0 0 =
      (if allUsableUpTo obsC3 0 then 1 else 0) ∧
    (aggFinalState cfgC3 obsC3).win.has_history.getD 1 0 = 1 :=
  ⟨(hasData_window_characterization cfgC3 obsC3 0 (by decide)).1 (fun j hj => by
      have hj0 : j = 0 := by omega
      subst hj0
      decide),
    (hasData_window_characterization cfgC3 obsC3 1 (by decide)).2 (by decide)⟩

/-! ## What the statistic vectors hold when the loop finishes -/

/-- The observations the history walk visits: everything before the
first break, minus uninitialized entries. -/
def visitedFrames (cfg : Config) (obs : Obstacle) : List Feature :=
  (obs.history.takeWhile (fun f => !frameBreaks cfg obs f)).filter
    (fun f => f.isInitialized)

/-- The visited observations that carry lane attributes: exactly those
that feed the seven parallel statistic vectors. -/
def laneSamples (cfg : Config) (obs : Obstacle) : List Feature :=
  (visitedFrames cfg obs).filter hasLaneAttr

/-- The statistic accumulators after pushing a run of lane samples. -/
def statsAfter (base : LaneStats) (samples : List Feature) : LaneStats :=
  { thetas := base.thetas ++
      samples.map (fun f => ((laneFeatureOf f).getD {}).angle_diff)
    lane_ls := base.lane_ls ++
      samples.map (fun f => ((laneFeatureOf f).getD {}).lane_l)
    dist_lbs := base.dist_lbs ++
      samples.map (fun f => ((laneFeatureOf f).getD {}).dist_to_left_boundary)
    dist_rbs := base.dist_rbs ++
      samples.map (fun f => ((laneFeatureOf f).getD {}).dist_to_right_boundary)
    lane_types := base.lane_types ++
      samples.map (fun f => ((laneFeatureOf f).getD {}).lane_turn_type)
    speeds := base.speeds ++ samples.map (fun f => f.speed)
    timestamps := base.timestamps ++ samples.map (fun f => f.timestamp)
    count := base.count + samples.length }

theorem statsAfter_nil (base : LaneStats) : statsAfter base [] = base := by
  simp [statsAfter]

theorem statsAfter_push (f : Feature) (base : LaneStats) (ss : List Feature) :
    statsAfter (laneStatPush f base) ss =
      statsAfter base (if hasLaneAttr f then f :: ss else ss) := by
  by_cases h : hasLaneAttr f = true
  · obtain ⟨lf, hlf⟩ := Option.isSome_iff_exists.mp h
    simp [statsAfter, laneStatPush, hlf, h, List.append_assoc]
    omega
  · have hnone : laneFeatureOf f = none := by
      revert h
      simp [hasLaneAttr]
    simp [statsAfter, laneStatPush, hnone, h]

theorem aggLoop_stats_char (cfg : Config) (obs : Obstacle) (cp : ℚ × ℚ) (ch : ℚ) :
    ∀ (frames : List Feature) (j : ℕ) (s : AggState),
    (aggLoop cfg obs cp ch frames j s).stats =
      statsAfter s.stats
        (((frames.takeWhile (fun f => !frameBreaks cfg obs f)).filter
          (fun f => f.isInitialized)).filter hasLaneAttr) := by
  intro frames
  induction frames with
  | nil => intro j s; exact (statsAfter_nil s.stats).symm
  | cons f rest ih =>
    intro j s
    by_cases h1 : f.isInitialized = false
    · have hbrk : frameBreaks cfg obs f = false := by simp [frameBreaks, h1]
      simp only [aggLoop]
      rw [if_pos h1, ih (j + 1) s]
      simp [List.takeWhile_cons, hbrk, h1]
    · by_cases h2 : f.timestamp < obs.timestampV - cfg.T
      · have hbrk : frameBreaks cfg obs f = true := by
          simp [frameBreaks, h2]
          revert h1
          cases f.isInitialized <;> simp
        simp only [aggLoop]
        rw [if_neg h1, if_pos h2]
        simp [List.takeWhile_cons, hbrk, statsAfter_nil]
      · have hinit : f.isInitialized = true := by
          revert h1
          cases f.isInitialized <;> simp
        have hbrk : frameBreaks cfg obs f = false := by
          simp [frameBreaks, h2]
        simp only [aggLoop]
        rw [if_neg h1, if_neg h2, ih (j + 1) _]
        rw [show (aggStep cfg cp ch j f s).stats = laneStatPush f s.stats from rfl]
        rw [statsAfter_push]
        simp [List.takeWhile_cons, hbrk, hinit, List.filter_cons]

theorem aggFinal_stats (cfg : Config) (obs : Obstacle) :
    (aggFinalState cfg obs).stats = statsAfter initLaneStats (laneSamples cfg obs) := by
  rw [aggFinalState_eq, aggLoop_stats_char]
  rfl

theorem aggFinal_count (cfg : Config) (obs : Obstacle) :
    (aggFinalState cfg obs).stats.count = (laneSamples cfg obs).length := by
  rw [aggFinal_stats]
  simp [statsAfter, initLaneStats]

theorem aggFinal_thetas (cfg : Config) (obs : Obstacle) :
    (aggFinalState cfg obs).stats.thetas =
      (laneSamples cfg obs).map (fun f => ((laneFeatureOf f).getD {}).angle_diff) := by
  rw [aggFinal_stats]
  simp [statsAfter, initLaneStats]

theorem aggFinal_lane_ls (cfg : Config) (obs : Obstacle) :
    (aggFinalState cfg obs).stats.lane_ls =
      (laneSamples cfg obs).map (fun f => ((laneFeatureOf f).getD {}).lane_l) := by
  rw [aggFinal_stats]
  simp [statsAfter, initLaneStats]

theorem aggFinal_timestamps (cfg : Config) (obs : Obstacle) :
    (aggFinalState cfg obs).stats.timestamps =
      (laneSamples cfg obs).map (fun f => f.timestamp) := by
  rw [aggFinal_stats]
  simp [statsAfter, initLaneStats]

/-! ## Shape of the aggregator output -/

theorem obstacleStats_length (obs : Obstacle) (st : LaneStats) :
    (obstacleStats obs st).length = 23 := rfl

theorem windowChunk_length (s : WindowState) (i : ℕ) :
    (windowChunk s i).length = 9 := rfl

theorem windowValues_length (s : WindowState) :
    ∀ w, (windowValues s w).length = 9 * w := by
  intro w
  induction w with
  | zero => rfl
  | succ w ih =>
    simp only [windowValues, List.length_append, ih, windowChunk_length]
    omega

theorem windowValues_take_drop (s : WindowState) :
    ∀ w i, i < w → ((windowValues s w).drop (9 * i)).take 9 = windowChunk s i := by
  intro w
  induction w with
  | zero => intro i hi; omega
  | succ w ih =>
    intro i hi
    rcases Nat.lt_or_ge i w with hlt | hge
    · simp only [windowValues]
      rw [List.drop_append_of_le_length (by rw [windowValues_length]; omega)]
      rw [List.take_append_of_le_length (by
        rw [List.length_drop, windowValues_length]; omega)]
      exact ih i hlt
    · have hiw : i = w := by omega
      subst hiw
      simp only [windowValues]
      rw [show 9 * i = (windowValues s i).length from (windowValues_length s i).symm]
      rw [List.drop_left]
      exact List.take_of_length_le (by rw [windowChunk_length])

/-- C7: when the aggregator does not early-return empty, its output is
exactly 23 summary values followed by W frames of 9 values each, the
frame at window index i occupying positions 23 + 9i through 23 + 9i + 8
in the order fixed by `windowChunk`. -/
theorem setObstacleFeatureValues_shape (cfg : Config) (obs : Obstacle)
    (h : SetObstacleFeatureValues cfg obs ≠ []) :
    (SetObstacleFeatureValues cfg obs).length = 23 + 9 * cfg.W ∧
    ∀ i, i < cfg.W →
      ((SetObstacleFeatureValues cfg obs).drop (23 + 9 * i)).take 9 =
        windowChunk (aggFinalState cfg obs).win i := by
  have hc : ¬((aggFinalState cfg obs).stats.count = 0) := by
    intro hc0
    apply h
    unfold SetObstacleFeatureValues
    rw [if_pos hc0]
  have hrep : SetObstacleFeatureValues cfg obs =
      obstacleStats obs (aggFinalState cfg obs).stats ++
        windowValues (aggFinalState cfg obs).win cfg.W := by
    unfold SetObstacleFeatureValues
    rw [if_neg hc]
  rw [hrep]
  constructor
  · rw [List.length_append, obstacleStats_length, windowValues_length]
  · intro i hi
    rw [show 23 + 9 * i =
      (obstacleStats obs (aggFinalState cfg obs).stats).length + 9 * i from by
        rw [obstacleStats_length]]
    rw [List.drop_append]
    exact windowValues_take_drop _ cfg.W i hi

/-- A lane-attribute block with distinctive values. -/
def sampleLaneFeature : LaneFeature :=
  { angle_diff := 1
    lane_l := 2
    dist_to_left_boundary := 3
    dist_to_right_boundary := 4
    lane_turn_type := 1 }

/-- An observation carrying the four motion fields and lane attributes. -/
def laneFrame : Feature :=
  { position := some ⟨0, 0⟩
    velocity := some ⟨0, 0⟩
    acceleration := some ⟨0, 0⟩
    velocity_heading := some 0
    speed := 5
    lane := some { lane_feature := some sampleLaneFeature } }

def obsC7 : Obstacle := { id := 4, history := [laneFrame] }

theorem setObstacleFeatureValues_shape_witness :
    (SetObstacleFeatureValues cfgC3 obsC7).length = 23 + 9 * cfgC3.W ∧
    ((SetObstacleFeatureValues cfgC3 obsC7).drop (23 + 9 * 0)).take 9 =
      windowChunk (aggFinalState cfgC3 obsC7).win 0 :=
  ⟨(setObstacleFeatureValues_shape cfgC3 obsC7 (by decide)).1,
    (setObstacleFeatureValues_shape cfgC3 obsC7 (by decide)).2 0 (by decide)⟩

/-! ## The angle and lane-offset deltas among the 23 statistics -/

theorem obstacleStats_getD3 (obs : Obstacle) (st : LaneStats) :
    (obstacleStats obs st).getD 3 0 =
      (if 10 ≤ obs.history.length then
        ComputeMean st.thetas 0 4 - ComputeMean st.thetas 5 9 else 0) := by
  show (if 2 * 5 ≤ obs.history.length then
      ComputeMean st.thetas 0 (5 - 1) - ComputeMean st.thetas 5 (2 * 5 - 1) else 0) = _
  norm_num

theorem obstacleStats_getD8 (obs : Obstacle) (st : LaneStats) :
    (obstacleStats obs st).getD 8 0 =
      (if 10 ≤ obs.history.length then
        ComputeMean st.lane_ls 0 4 - ComputeMean st.lane_ls 5 9 else 0) := by
  show (if 2 * 5 ≤ obs.history.length then
      ComputeMean st.lane_ls 0 (5 - 1) - ComputeMean st.lane_ls 5 (2 * 5 - 1) else 0) = _
  norm_num

/-- The average sample spacing `delta_t` of the statistics section. -/
def statDeltaT (st : LaneStats) : ℚ :=
  if 1 < st.timestamps.length then
    (st.timestamps.headD 0 - st.timestamps.getLastD 0) /
      ((st.timestamps.length : ℚ) - 1)
  else 0

theorem obstacleStats_getD4 (obs : Obstacle) (st : LaneStats) :
    (obstacleStats obs st).getD 4 0 =
      (if dblEpsilon < statDeltaT st then
        (if 10 ≤ obs.history.length then
          ComputeMean st.thetas 0 4 - ComputeMean st.thetas 5 9 else 0) /
          (statDeltaT st * 5)
      else 0) := by
  show (if dblEpsilon <
      (if 1 < st.timestamps.length then
        (st.timestamps.headD 0 - st.timestamps.getLastD 0) /
          ((st.timestamps.length : ℚ) - 1) else 0) then
      (if 2 * 5 ≤ obs.history.length then
        ComputeMean st.thetas 0 (5 - 1) - ComputeMean st.thetas 5 (2 * 5 - 1) else 0) /
        ((if 1 < st.timestamps.length then
          (st.timestamps.headD 0 - st.timestamps.getLastD 0) /
            ((st.timestamps.length : ℚ) - 1) else 0) * ((5 : ℕ) : ℚ))
    else 0) = _
  rw [show (if 1 < st.timestamps.length then
      (st.timestamps.headD 0 - st.timestamps.getLastD 0) /
        ((st.timestamps.length : ℚ) - 1) else 0) = statDeltaT st from rfl]
  norm_num

theorem obstacleStats_getD9 (obs : Obstacle) (st : LaneStats) :
    (obstacleStats obs st).getD 9 0 =
      (if dblEpsilon < statDeltaT st then
        (if 10 ≤ obs.history.length then
          ComputeMean st.lane_ls 0 4 - ComputeMean st.lane_ls 5 9 else 0) /
          (statDeltaT st * 5)
      else 0) := by
  show (if dblEpsilon <
      (if 1 < st.timestamps.length then
        (st.timestamps.headD 0 - st.timestamps.getLastD 0) /
          ((st.timestamps.length : ℚ) - 1) else 0) then
      (if 2 * 5 ≤ obs.history.length then
        ComputeMean st.lane_ls 0 (5 - 1) - ComputeMean st.lane_ls 5 (2 * 5 - 1) else 0) /
        ((if 1 < st.timestamps.length then
          (st.timestamps.headD 0 - st.timestamps.getLastD 0) /
            ((st.timestamps.length : ℚ) - 1) else 0) * ((5 : ℕ) : ℚ))
    else 0) = _
  rw [show (if 1 < st.timestamps.length then
      (st.timestamps.headD 0 - st.timestamps.getLastD 0) /
        ((st.timestamps.length : ℚ) - 1) else 0) = statDeltaT st from rfl]
  norm_num

/-- The angle-diff values of the lane-attributed samples, most recent
first. -/
def sampleAngles (cfg : Config) (obs : Obstacle) : List ℚ :=
  (laneSamples cfg obs).map (fun f => ((laneFeatureOf f).getD {}).angle_diff)

/-- The lane-offset values of the lane-attributed samples. -/
def sampleLaneLs (cfg : Config) (obs : Obstacle) : List ℚ :=
  (laneSamples cfg obs).map (fun f => ((laneFeatureOf f).getD {}).lane_l)

/-- The timestamps of the lane-attributed samples. -/
def sampleTimestamps (cfg : Config) (obs : Obstacle) : List ℚ :=
  (laneSamples cfg obs).map (fun f => f.timestamp)

/-- The average sample spacing the statistics section divides by. -/
def sampleDeltaT (cfg : Config) (obs : Obstacle) : ℚ :=
  if 1 < (sampleTimestamps cfg obs).length then
    ((sampleTimestamps cfg obs).headD 0 - (sampleTimestamps cfg obs).getLastD 0) /
      (((sampleTimestamps cfg obs).length : ℚ) - 1)
  else 0

theorem statDeltaT_final (cfg : Config) (obs : Obstacle) :
    statDeltaT (aggFinalState cfg obs).stats = sampleDeltaT cfg obs := by
  simp only [statDeltaT, sampleDeltaT, sampleTimestamps, aggFinal_timestamps]

/-- C5 (amended): the angle-diff and lane-offset deltas emitted at
positions 3 and 8 compare the mean over sample indices 0 to 4 with the
mean over indices 5 to 9 of the lane-attributed sample lists exactly
when the obstacle's whole history (lane-attributed or not) holds at
least 10 observations, and are 0 otherwise; the rates at positions 4
and 9 divide the deltas by five times the average sample spacing only
when that spacing exceeds the machine epsilon, else they are 0. -/
theorem setObstacle_deltas (cfg : Config) (obs : Obstacle)
    (h : SetObstacleFeatureValues cfg obs ≠ []) :
    (SetObstacleFeatureValues cfg obs).getD 3 0 =
      (if 10 ≤ obs.history.length then
        ComputeMean (sampleAngles cfg obs) 0 4 -
          ComputeMean (sampleAngles cfg obs) 5 9 else 0) ∧
    (SetObstacleFeatureValues cfg obs).getD 8 0 =
      (if 10 ≤ obs.history.length then
        ComputeMean (sampleLaneLs cfg obs) 0 4 -
          ComputeMean (sampleLaneLs cfg obs) 5 9 else 0) ∧
    (SetObstacleFeatureValues cfg obs).getD 4 0 =
      (if dblEpsilon < sampleDeltaT cfg obs then
        (if 10 ≤ obs.history.length then
          ComputeMean (sampleAngles cfg obs) 0 4 -
            ComputeMean (sampleAngles cfg obs) 5 9 else 0) /
          (sampleDeltaT cfg obs * 5)
      else 0) ∧
    (SetObstacleFeatureValues cfg obs).getD 9 0 =
      (if dblEpsilon < sampleDeltaT cfg obs then
        (if 10 ≤ obs.history.length then
          ComputeMean (sampleLaneLs cfg obs) 0 4 -
            ComputeMean (sampleLaneLs cfg obs) 5 9 else 0) /
          (sampleDeltaT cfg obs * 5)
      else 0) := by
  have hc : ¬((aggFinalState cfg obs).stats.count = 0) := by
    intro hc0
    apply h
    unfold SetObstacleFeatureValues
    rw [if_pos hc0]
  have hrep : SetObstacleFeatureValues cfg obs =
      obstacleStats obs (aggFinalState cfg obs).stats ++
        windowValues (aggFinalState cfg obs).win cfg.W := by
    unfold SetObstacleFeatureValues
    rw [if_neg hc]
  refine ⟨?_, ?_, ?_, ?_⟩
  · rw [hrep, getD_append_lt _ _ _ _ (by rw [obstacleStats_length]; omega)]
    rw [obstacleStats_getD3, aggFinal_thetas]
    rfl
  · rw [hrep, getD_append_lt _ _ _ _ (by rw [obstacleStats_length]; omega)]
    rw [obstacleStats_getD8, aggFinal_lane_ls]
    rfl
  · rw [hrep, getD_append_lt _ _ _ _ (by rw [obstacleStats_length]; omega)]
    rw [obstacleStats_getD4, statDeltaT_final, aggFinal_thetas]
    rfl
  · rw [hrep, getD_append_lt _ _ _ _ (by rw [obstacleStats_length]; omega)]
    rw [obstacleStats_getD9, statDeltaT_final, aggFinal_lane_ls]
    rfl

/-- Claim C5 as stated: the same four equations, but with the deltas
conditioned on the number of lane-attributed samples rather than on the
length of the whole history. -/
def C5claim (cfg : Config) (obs : Obstacle) : Prop :=
  SetObstacleFeatureValues cfg obs ≠ [] →
    ((SetObstacleFeatureValues cfg obs).getD 3 0 =
      (if 10 ≤ (laneSamples cfg obs).length then
        ComputeMean (sampleAngles cfg obs) 0 4 -
          ComputeMean (sampleAngles cfg obs) 5 9 else 0) ∧
    (SetObstacleFeatureValues cfg obs).getD 8 0 =
      (if 10 ≤ (laneSamples cfg obs).length then
        ComputeMean (sampleLaneLs cfg obs) 0 4 -
          ComputeMean (sampleLaneLs cfg obs) 5 9 else 0) ∧
    (SetObstacleFeatureValues cfg obs).getD 4 0 =
      (if dblEpsilon < sampleDeltaT cfg obs then
        (if 10 ≤ (laneSamples cfg obs).length then
          ComputeMean (sampleAngles cfg obs) 0 4 -
            ComputeMean (sampleAngles cfg obs) 5 9 else 0) /
          (sampleDeltaT cfg obs * 5)
      else 0) ∧
    (SetObstacleFeatureValues cfg obs).getD 9 0 =
      (if dblEpsilon < sampleDeltaT cfg obs then
        (if 10 ≤ (laneSamples cfg obs).length then
          ComputeMean (sampleLaneLs cfg obs) 0 4 -
            ComputeMean (sampleLaneLs cfg obs) 5 9 else 0) /
          (sampleDeltaT cfg obs * 5)
      else 0))

/-- Ten observations, a single lane-attributed one among them. -/
def obsC5 : Obstacle :=
  { id := 5, history := laneFrame :: List.replicate 9 {} }

/-- C5 counterexample: with ten history frames of which only one carries
lane attributes, the code's condition `history length at least 10` holds
and the emitted delta is the lone sample's angle-diff 1, while the claim
asks for 0 because fewer than 10 lane-attributed samples exist. -/
theorem C5_counterexample : ¬ C5claim cfgC3 obsC5 := fun h => by
  have h3 := (h (by decide)).1
  revert h3
  decide

theorem setObstacle_deltas_witness :
    (SetObstacleFeatureValues cfgC3 obsC5).getD 3 0 =
      (if 10 ≤ obsC5.history.length then
        ComputeMean (sampleAngles cfgC3 obsC5) 0 4 -
          ComputeMean (sampleAngles cfgC3 obsC5) 5 9 else 0) :=
  (setObstacle_deltas cfgC3 obsC5 (by decide)).1

/-! ## Interaction extractor facts -/

/-- The forward-slot component of one scan step: a non-negative `s`
strictly below the current best takes the slot. -/
def fwdStep (a : TrackedNearby) (nb : NearbyObstacle) : TrackedNearby :=
  if 0 ≤ nb.s ∧ nb.s < a.s then ⟨some nb.id, nb.s, nb.l⟩ else a

/-- The backward-slot component: a negative `s` strictly above the
current best takes the slot. -/
def bwdStep (a : TrackedNearby) (nb : NearbyObstacle) : TrackedNearby :=
  if nb.s < 0 ∧ a.s < nb.s then ⟨some nb.id, nb.s, nb.l⟩ else a

theorem nearbyScanStep_fst (p : TrackedNearby × TrackedNearby) (nb : NearbyObstacle) :
    (nearbyScanStep p nb).1 = fwdStep p.1 nb := by
  unfold nearbyScanStep fwdStep
  by_cases h : nb.s < 0
  · rw [if_pos h,
      if_neg (fun hc : 0 ≤ nb.s ∧ nb.s < p.1.s => absurd h (not_lt.mpr hc.1))]
    split <;> rfl
  · rw [if_neg h]
    by_cases h2 : nb.s < p.1.s
    · rw [if_pos h2, if_pos ⟨not_lt.mp h, h2⟩]
    · rw [if_neg h2, if_neg (fun hc : 0 ≤ nb.s ∧ nb.s < p.1.s => h2 hc.2)]

theorem nearbyScanStep_snd (p : TrackedNearby × TrackedNearby) (nb : NearbyObstacle) :
    (nearbyScanStep p nb).2 = bwdStep p.2 nb := by
  unfold nearbyScanStep bwdStep
  by_cases h : nb.s < 0
  · rw [if_pos h]
    by_cases h2 : nb.s > p.2.s
    · rw [if_pos h2, if_pos ⟨h, h2⟩]
    · rw [if_neg h2, if_neg (fun hc : nb.s < 0 ∧ p.2.s < nb.s => h2 hc.2)]
  · rw [if_neg h, if_neg (fun hc : nb.s < 0 ∧ p.2.s < nb.s => h hc.1)]
    split <;> rfl

theorem nearbyScan_fst : ∀ (l : List NearbyObstacle) (p : TrackedNearby × TrackedNearby),
    (l.foldl nearbyScanStep p).1 = l.foldl fwdStep p.1 := by
  intro l
  induction l with
  | nil => intro p; rfl
  | cons nb rest ih =>
    intro p
    rw [List.foldl_cons, List.foldl_cons, ih, nearbyScanStep_fst]

theorem nearbyScan_snd : ∀ (l : List NearbyObstacle) (p : TrackedNearby × TrackedNearby),
    (l.foldl nearbyScanStep p).2 = l.foldl bwdStep p.2 := by
  intro l
  induction l with
  | nil => intro p; rfl
  | cons nb rest ih =>
    intro p
    rw [List.foldl_cons, List.foldl_cons, ih, nearbyScanStep_snd]

theorem fwdFold_le : ∀ (l : List NearbyObstacle) (a : TrackedNearby),
    (l.foldl fwdStep a).s ≤ a.s := by
  intro l
  induction l with
  | nil => intro a; exact le_refl _
  | cons nb rest ih =>
    intro a
    rw [List.foldl_cons]
    refine le_trans (ih (fwdStep a nb)) ?_
    unfold fwdStep
    split
    · exact le_of_lt (by assumption : (0 ≤ nb.s ∧ nb.s < a.s)).2
    · exact le_refl _

theorem bwdFold_ge : ∀ (l : List NearbyObstacle) (a : TrackedNearby),
    a.s ≤ (l.foldl bwdStep a).s := by
  intro l
  induction l with
  | nil => intro a; exact le_refl _
  | cons nb rest ih =>
    intro a
    rw [List.foldl_cons]
    refine le_trans ?_ (ih (bwdStep a nb))
    unfold bwdStep
    split
    · exact le_of_lt (by assumption : (nb.s < 0 ∧ a.s < nb.s)).2
    · exact le_refl _

theorem fwdFold_of_none : ∀ (l : List NearbyObstacle) (a : TrackedNearby),
    (∀ nb ∈ l, ¬(0 ≤ nb.s ∧ nb.s < a.s)) → l.foldl fwdStep a = a := by
  intro l
  induction l with
  | nil => intro a _; rfl
  | cons nb rest ih =>
    intro a h
    rw [List.foldl_cons, show fwdStep a nb = a from if_neg (h nb (by simp))]
    exact ih a (fun x hx => h x (by simp [hx]))

theorem bwdFold_of_none : ∀ (l : List NearbyObstacle) (a : TrackedNearby),
    (∀ nb ∈ l, ¬(nb.s < 0 ∧ a.s < nb.s)) → l.foldl bwdStep a = a := by
  intro l
  induction l with
  | nil => intro a _; rfl
  | cons nb rest ih =>
    intro a h
    rw [List.foldl_cons, show bwdStep a nb = a from if_neg (h nb (by simp))]
    exact ih a (fun x hx => h x (by simp [hx]))

theorem fwdFold_lt : ∀ (l : List NearbyObstacle) (a : TrackedNearby),
    (∃ nb ∈ l, 0 ≤ nb.s ∧ nb.s < a.s) → (l.foldl fwdStep a).s < a.s := by
  intro l
  induction l with
  | nil => intro a h; simp at h
  | cons nb rest ih =>
    intro a h
    rw [List.foldl_cons]
    by_cases hnb : 0 ≤ nb.s ∧ nb.s < a.s
    · have hstep : (fwdStep a nb).s = nb.s := by rw [fwdStep, if_pos hnb]
      calc (rest.foldl fwdStep (fwdStep a nb)).s ≤ (fwdStep a nb).s := fwdFold_le rest _
        _ < a.s := by rw [hstep]; exact hnb.2
    · rw [show fwdStep a nb = a from if_neg hnb]
      obtain ⟨x, hx, hxs⟩ := h
      rcases List.mem_cons.mp hx with hhead | htail
      · exact absurd (hhead ▸ hxs) hnb
      · exact ih a ⟨x, htail, hxs⟩

theorem bwdFold_gt : ∀ (l : List NearbyObstacle) (a : TrackedNearby),
    (∃ nb ∈ l, nb.s < 0 ∧ a.s < nb.s) → a.s < (l.foldl bwdStep a).s := by
  intro l
  induction l with
  | nil => intro a h; simp at h
  | cons nb rest ih =>
    intro a h
    rw [List.foldl_cons]
    by_cases hnb : nb.s < 0 ∧ a.s < nb.s
    · have hstep : (bwdStep a nb).s = nb.s := by rw [bwdStep, if_pos hnb]
      calc a.s < (bwdStep a nb).s := by rw [hstep]; exact hnb.2
        _ ≤ (rest.foldl bwdStep (bwdStep a nb)).s := bwdFold_ge rest _
    · rw [show bwdStep a nb = a from if_neg hnb]
      obtain ⟨x, hx, hxs⟩ := h
      rcases List.mem_cons.mp hx with hhead | htail
      · exact absurd (hhead ▸ hxs) hnb
      · exact ih a ⟨x, htail, hxs⟩

/-- The forward nearby obstacle the scan settles on. -/
def forwardTracked (cfg : Config) (seq : LaneSequence) : TrackedNearby :=
  seq.nearby_obstacle.foldl fwdStep ⟨none, cfg.defaultS, cfg.defaultL⟩

/-- The backward nearby obstacle the scan settles on. -/
def backwardTracked (cfg : Config) (seq : LaneSequence) : TrackedNearby :=
  seq.nearby_obstacle.foldl bwdStep ⟨none, -cfg.defaultS, cfg.defaultL⟩

theorem interaction_decomp (cfg : Config) (container : ℤ → Feature)
    (seq : LaneSequence) :
    SetInteractionFeatureValues cfg container seq =
      [(forwardTracked cfg seq).s, (forwardTracked cfg seq).l] ++
        nearbyTail container (forwardTracked cfg seq) ++
        [(backwardTracked cfg seq).s, (backwardTracked cfg seq).l] ++
        nearbyTail container (backwardTracked cfg seq) := by
  simp only [SetInteractionFeatureValues, forwardTracked, backwardTracked]
  rw [nearbyScan_fst, nearbyScan_snd]

theorem nearbyTail_shape (container : ℤ → Feature) (t : TrackedNearby) :
    ∃ u v, nearbyTail container t = [u, v] := by
  cases h : t.id with
  | none => exact ⟨0, 0, by simp [nearbyTail, h]⟩
  | some v => exact ⟨(container v).length, (container v).speed, by simp [nearbyTail, h]⟩

set_option maxHeartbeats 1600000 in
/-- C4 (amended): the interaction extractor always emits exactly the 8
values forward-s, forward-l, forward-length, forward-speed, backward-s,
backward-l, backward-length, backward-speed; the forward default pair
survives exactly when no nearby obstacle has `s` in `[0, defaultS)`, and
the backward default pair exactly when no nearby obstacle has `s` in
`(-defaultS, 0)` -- an entry at or beyond the default distance never
displaces the default, unlike what the unqualified claim asserts. -/
theorem interaction_features_spec (cfg : Config) (container : ℤ → Feature)
    (seq : LaneSequence) :
    (SetInteractionFeatureValues cfg container seq).length = 8 ∧
    SetInteractionFeatureValues cfg container seq =
      [(forwardTracked cfg seq).s, (forwardTracked cfg seq).l] ++
        nearbyTail container (forwardTracked cfg seq) ++
        [(backwardTracked cfg seq).s, (backwardTracked cfg seq).l] ++
        nearbyTail container (backwardTracked cfg seq) ∧
    (((SetInteractionFeatureValues cfg container seq).getD 0 0,
      (SetInteractionFeatureValues cfg container seq).getD 1 0) =
        (cfg.defaultS, cfg.defaultL) ↔
      ∀ nb ∈ seq.nearby_obstacle, ¬(0 ≤ nb.s ∧ nb.s < cfg.defaultS)) ∧
    (((SetInteractionFeatureValues cfg container seq).getD 4 0,
      (SetInteractionFeatureValues cfg container seq).getD 5 0) =
        (-cfg.defaultS, cfg.defaultL) ↔
      ∀ nb ∈ seq.nearby_obstacle, ¬(nb.s < 0 ∧ -cfg.defaultS < nb.s)) := by
  obtain ⟨fu, fv, hf⟩ := nearbyTail_shape container (forwardTracked cfg seq)
  obtain ⟨bu, bv, hb⟩ := nearbyTail_shape container (backwardTracked cfg seq)
  have hdec := interaction_decomp cfg container seq
  rw [hf, hb] at hdec
  refine ⟨by rw [hdec]; rfl, by rw [interaction_decomp], ?_, ?_⟩
  · rw [hdec]
    show ((forwardTracked cfg seq).s, (forwardTracked cfg seq).l) = _ ↔ _
    constructor
    · intro hpair nb hmem hq
      have hlt : (forwardTracked cfg seq).s < cfg.defaultS :=
        fwdFold_lt seq.nearby_obstacle ⟨none, cfg.defaultS, cfg.defaultL⟩ ⟨nb, hmem, hq⟩
      rw [show (forwardTracked cfg seq).s = cfg.defaultS from congrArg Prod.fst hpair] at hlt
      exact lt_irrefl _ hlt
    · intro hnone
      rw [forwardTracked, fwdFold_of_none seq.nearby_obstacle _ hnone]
  · rw [hdec]
    show ((backwardTracked cfg seq).s, (backwardTracked cfg seq).l) = _ ↔ _
    constructor
    · intro hpair nb hmem hq
      have hgt : -cfg.defaultS < (backwardTracked cfg seq).s :=
        bwdFold_gt seq.nearby_obstacle ⟨none, -cfg.defaultS, cfg.defaultL⟩ ⟨nb, hmem, hq⟩
      rw [show (backwardTracked cfg seq).s = -cfg.defaultS from congrArg Prod.fst hpair] at hgt
      exact lt_irrefl _ hgt
    · intro hnone
      rw [backwardTracked, bwdFold_of_none seq.nearby_obstacle _ hnone]

/-- Claim C4 as stated: length 8 with the fixed slot order, and the
default pairs appear exactly when no entry has non-negative
(respectively negative) `s`. -/
def C4claim (cfg : Config) (container : ℤ → Feature) (seq : LaneSequence) : Prop :=
  (SetInteractionFeatureValues cfg container seq).length = 8 ∧
  (((SetInteractionFeatureValues cfg container seq).getD 0 0,
    (SetInteractionFeatureValues cfg container seq).getD 1 0) =
      (cfg.defaultS, cfg.defaultL) ↔
    ∀ nb ∈ seq.nearby_obstacle, ¬(0 ≤ nb.s)) ∧
  (((SetInteractionFeatureValues cfg container seq).getD 4 0,
    (SetInteractionFeatureValues cfg container seq).getD 5 0) =
      (-cfg.defaultS, cfg.defaultL) ↔
    ∀ nb ∈ seq.nearby_obstacle, ¬(nb.s < 0))

/-- An external obstacle store with nothing in it. -/
def containerZ : ℤ → Feature := fun _ => emptyFeature

/-- A lane sequence whose only nearby obstacle sits at s = 20, beyond
the default distance 10 of `cfgC3`. -/
def seqC4 : LaneSequence := { nearby_obstacle := [⟨7, 20, 5⟩] }

/-- C4 counterexample: the nearby obstacle at s = 20 has non-negative s,
yet the forward slots still show the default pair (10, 1), because the
scan only replaces the default by an entry strictly closer than it. -/
theorem C4_counterexample : ¬ C4claim cfgC3 containerZ seqC4 := fun h =>
  (h.2.1.mp (by decide) ⟨7, 20, 5⟩ (by decide)) (by decide)

/-! ## Lane extractor facts -/

theorem interaction_length (cfg : Config) (container : ℤ → Feature)
    (seq : LaneSequence) :
    (SetInteractionFeatureValues cfg container seq).length = 8 := by
  obtain ⟨fu, fv, hf⟩ := nearbyTail_shape container (forwardTracked cfg seq)
  obtain ⟨bu, bv, hb⟩ := nearbyTail_shape container (backwardTracked cfg seq)
  rw [interaction_decomp, hf, hb]
  rfl

theorem collectLaneValues_zero (cfg : Config) (cp : ℚ × ℚ) (hd : ℚ)
    (segs : List LaneSegment) (hN : cfg.lanePoints = 0) :
    collectLaneValues cfg cp hd segs = [] := by
  unfold collectLaneValues
  suffices hgen : ∀ (l : List LaneSegment) (acc : List ℚ),
      l.foldl (fun acc seg =>
        if SINGLE_LANE_FEATURE_SIZE * cfg.lanePoints ≤ acc.length then acc
        else seg.lane_point.foldl (fun acc2 lp =>
          if SINGLE_LANE_FEATURE_SIZE * cfg.lanePoints ≤ acc2.length then acc2
          else match lp.position with
            | none => acc2
            | some pos =>
                let rel := cfg.w2o (pos.x, pos.y) cp hd
                let ang := cfg.a2o lp.heading hd
                acc2 ++ [rel.2, rel.1, ang, lp.kappa]) acc) acc = acc by
    exact hgen segs []
  intro l
  induction l with
  | nil => intro acc; rfl
  | cons seg rest ih =>
    intro acc
    rw [List.foldl_cons, if_pos (by simp [hN, SINGLE_LANE_FEATURE_SIZE])]
    exact ih acc

theorem setLaneFeatureValues_zero (cfg : Config) (obs : Obstacle)
    (seq : LaneSequence) (hN : cfg.lanePoints = 0) :
    SetLaneFeatureValues cfg obs seq = [] := by
  unfold SetLaneFeatureValues
  dsimp only
  split
  · rfl
  · split
    · rfl
    · rw [collectLaneValues_zero cfg _ _ _ hN, hN]
      rfl

/-- Configuration with a 4-point lane block for the extrapolation
scenario. -/
def cfgC2 : Config :=
  { W := 2, T := 1, doublePrecision := 1 / 1000, defaultS := 10, defaultL := 1,
    offlineMode := false, lanePoints := 4,
    w2o := idPointTransform, a2o := idAngleTransform }

def lpA : LanePoint := { position := some ⟨1, 10⟩, heading := 100, kappa := 1000 }

def lpB : LanePoint := { position := some ⟨2, 20⟩, heading := 200, kappa := 2000 }

def lpC : LanePoint := { position := some ⟨3, 30⟩, heading := 300, kappa := 3000 }

/-- Three raw lane points; one more must be extrapolated. -/
def seqC2 : LaneSequence := { lane_segment := [⟨[lpA, lpB, lpC]⟩] }

def obsC2 : Obstacle := { id := 6, history := [fullFrame] }

/-- C2 (code bug): with three collected points of width 4, the
extrapolated fourth point reads the vector at offsets size-5 and
size-10 -- the stride of the removed 5-wide point layout -- so its
lateral slot holds 2 * kappa(p2) - heading(p1) = 3900 instead of the
linear extrapolation 2 * 30 - 20 = 40 of the lateral channel, its
longitudinal slot holds 2 * lateral(p3) - kappa(p1) = -940, and its
heading slot repeats the longitudinal value 3 instead of the heading
300; also, a sequence with no points at all yields an empty block, not
a 16-value one. -/
theorem setLaneFeatureValues_stale_stride :
    SetLaneFeatureValues cfgC2 obsC2 seqC2 =
      [10, 1, 100, 1000, 20, 2, 200, 2000, 30, 3, 300, 3000, 3900, -940, 3, 0] ∧
    (SetLaneFeatureValues cfgC2 obsC2 seqC2).getD 12 0 ≠
      2 * (SetLaneFeatureValues cfgC2 obsC2 seqC2).getD 8 0 -
        (SetLaneFeatureValues cfgC2 obsC2 seqC2).getD 4 0 ∧
    (SetLaneFeatureValues cfgC2 obsC2 seqC2).getD 14 0 ≠
      (SetLaneFeatureValues cfgC2 obsC2 seqC2).getD 10 0 ∧
    SetLaneFeatureValues cfgC2 obsC2 { } = [] :=
  ⟨by decide, by decide, by decide, by decide⟩

/-! ## The incremental length checks of ExtractFeatureValues -/

theorem extract_fst_of_offline_if (c : Bool) (x : List ℚ) (a b : LaneSequence) :
    (if c = true then (x, a) else (x, b)).1 = x := by
  split <;> rfl

/-- C10: after extraction the assembled vector's length is one of 0,
the obstacle-block size, obstacle plus interaction size, or the full
declared total, because each block is appended only behind its own
exact-size check -- and the total length is reached exactly when all
three blocks passed their checks, which is what the single length check
in `Evaluate` tests. -/
theorem extract_length_cases (cfg : Config) (container : ℤ → Feature)
    (obs : Obstacle) (seq : LaneSequence) :
    ((ExtractFeatureValues cfg container obs seq).1.length = 0 ∨
      (ExtractFeatureValues cfg container obs seq).1.length = OBSTACLE_FEATURE_SIZE cfg ∨
      (ExtractFeatureValues cfg container obs seq).1.length =
        OBSTACLE_FEATURE_SIZE cfg + INTERACTION_FEATURE_SIZE ∨
      (ExtractFeatureValues cfg container obs seq).1.length = totalFeatureSize cfg) ∧
    ((ExtractFeatureValues cfg container obs seq).1.length = totalFeatureSize cfg ↔
      (SetObstacleFeatureValues cfg obs).length = OBSTACLE_FEATURE_SIZE cfg ∧
      (SetInteractionFeatureValues cfg container seq).length = INTERACTION_FEATURE_SIZE ∧
      (SetLaneFeatureValues cfg obs seq).length =
        SINGLE_LANE_FEATURE_SIZE * cfg.lanePoints) := by
  unfold ExtractFeatureValues
  by_cases h1 : (SetObstacleFeatureValues cfg obs).length ≠ OBSTACLE_FEATURE_SIZE cfg
  · rw [if_pos h1]
    refine ⟨Or.inl rfl, ?_, fun hc => absurd hc.1 h1⟩
    intro h0
    exfalso
    rw [show (([], seq) : List ℚ × LaneSequence).1.length = 0 from rfl] at h0
    unfold totalFeatureSize OBSTACLE_FEATURE_SIZE INTERACTION_FEATURE_SIZE at h0
    omega
  · rw [if_neg h1]
    rw [not_not] at h1
    rw [if_neg (by rw [interaction_length]; exact fun hc => hc rfl)]
    by_cases h3 : (SetLaneFeatureValues cfg obs seq).length ≠
        SINGLE_LANE_FEATURE_SIZE * cfg.lanePoints
    · rw [if_pos h3]
      refine ⟨Or.inr (Or.inr (Or.inl ?_)), ?_, fun hc => absurd hc.2.2 h3⟩
      · simp [List.length_append, h1, interaction_length, INTERACTION_FEATURE_SIZE]
      · intro h0
        exfalso
        simp only [List.length_append, h1, interaction_length, totalFeatureSize,
          INTERACTION_FEATURE_SIZE] at h0
        have hN : cfg.lanePoints = 0 := by
          unfold SINGLE_LANE_FEATURE_SIZE at h0
          omega
        exact h3 (by rw [setLaneFeatureValues_zero cfg obs seq hN, hN]; rfl)
    · rw [if_neg h3]
      rw [not_not] at h3
      have hlen : (SetObstacleFeatureValues cfg obs ++
          SetInteractionFeatureValues cfg container seq ++
          SetLaneFeatureValues cfg obs seq).length = totalFeatureSize cfg := by
        simp [List.length_append, h1, h3, interaction_length, totalFeatureSize,
          INTERACTION_FEATURE_SIZE]
        omega
      cases hof : cfg.offlineMode
      · exact ⟨Or.inr (Or.inr (Or.inr hlen)), fun _ =>
          ⟨h1, interaction_length cfg container seq, h3⟩, fun _ => hlen⟩
      · exact ⟨Or.inr (Or.inr (Or.inr hlen)), fun _ =>
          ⟨h1, interaction_length cfg container seq, h3⟩, fun _ => hlen⟩

/-! ## Orchestrator plumbing -/

theorem evaluate_processed (cfg : Config) (models : Models) (container : ℤ → Feature)
    (obs : Obstacle) (li : Lane) (lg : LaneGraph)
    (h1 : obs.latest_feature.isInitialized = true)
    (h2 : obs.latest_feature.lane = some li)
    (h3 : li.lane_graph = some lg)
    (h4 : lg.lane_sequence ≠ []) :
    Evaluate cfg models container obs =
      (obs.setSequences ((lg.lane_sequence.map
          (fun seq => evaluateSequence cfg models container obs seq)).map Prod.fst),
        (lg.lane_sequence.map
          (fun seq => evaluateSequence cfg models container obs seq)).map Prod.snd,
        if cfg.offlineMode then
          [(obs.setSequences ((lg.lane_sequence.map
            (fun seq => evaluateSequence cfg models container obs seq)).map
              Prod.fst)).latest_feature]
        else []) := by
  unfold Evaluate
  rw [if_neg (by rw [h1]; simp)]
  rw [h2]
  dsimp only
  rw [h3]
  dsimp only
  rw [if_neg (by rw [List.length_eq_zero]; exact h4)]

theorem latest_lane_of_setSequences (obs : Obstacle) (seqs : List LaneSequence)
    (li : Lane) (lg : LaneGraph)
    (h1 : obs.latest_feature.isInitialized = true)
    (h2 : obs.latest_feature.lane = some li)
    (h3 : li.lane_graph = some lg) :
    (obs.setSequences seqs).laneSequences = seqs := by
  rcases hh : obs.history with _ | ⟨f, rest⟩
  · rw [Obstacle.latest_feature, hh] at h1
    simp [emptyFeature] at h1
  · have hf : obs.latest_feature = f := by rw [Obstacle.latest_feature, hh]; rfl
    rw [hf] at h2
    unfold Obstacle.setSequences
    rw [hh]
    dsimp only
    rw [h2]
    dsimp only
    rw [h3]
    unfold Obstacle.laneSequences Obstacle.latest_feature
    simp

theorem laneSequences_of_graph (obs : Obstacle) (li : Lane) (lg : LaneGraph)
    (h2 : obs.latest_feature.lane = some li) (h3 : li.lane_graph = some lg) :
    obs.laneSequences = lg.lane_sequence := by
  unfold Obstacle.laneSequences
  rw [h2]
  simp [h3]

theorem extract_of_empty_block (cfg : Config) (container : ℤ → Feature)
    (obs : Obstacle) (seq : LaneSequence)
    (h : SetObstacleFeatureValues cfg obs = []) :
    ExtractFeatureValues cfg container obs seq = ([], seq) := by
  unfold ExtractFeatureValues
  rw [h]
  rw [if_pos (by simp only [List.length_nil, OBSTACLE_FEATURE_SIZE]; omega)]

theorem evaluateSequence_of_empty_block (cfg : Config) (models : Models)
    (container : ℤ → Feature) (obs : Obstacle) (seq : LaneSequence)
    (h : SetObstacleFeatureValues cfg obs = []) :
    evaluateSequence cfg models container obs seq =
      ({ seq with probability := 0 }, none) := by
  unfold evaluateSequence
  rw [extract_of_empty_block cfg container obs seq h]
  rw [if_pos (by
    simp only [List.length_nil, totalFeatureSize, OBSTACLE_FEATURE_SIZE,
      INTERACTION_FEATURE_SIZE]
    omega)]

/-! ## Claim C1: an obstacle with no lane-attributed observation -/

/-- Claim C1 as stated: empty feature block, and `Evaluate` leaves every
candidate's probability unchanged. -/
def C1claim (cfg : Config) (models : Models) (container : ℤ → Feature)
    (obs : Obstacle) : Prop :=
  (∀ f ∈ visitedFrames cfg obs, hasLaneAttr f = false) →
    SetObstacleFeatureValues cfg obs = [] ∧
    (Evaluate cfg models container obs).1.laneSequences.map
        (fun s => s.probability) =
      obs.laneSequences.map (fun s => s.probability)

/-- The fixed model pair used in the concrete scenarios. -/
def modelsC : Models :=
  { go := fun _ _ => (7, 9), cutin := fun _ _ => (11, 13) }

/-- A latest observation with a lane graph (one candidate, probability
one half) but no lane-relative attributes anywhere in the history. -/
def laneC1 : Lane := { lane_graph := some ⟨[{ probability := 1 / 2 }]⟩ }

def frameC1 : Feature := { lane := some laneC1 }

def obsC1 : Obstacle := { id := 8, history := [frameC1] }

/-- C1 counterexample: the obstacle's single candidate had probability
one half; after `Evaluate` it is 0, not unchanged, because the
undersized feature vector trips the length check that writes 0. -/
theorem C1_counterexample : ¬ C1claim cfgC3 modelsC containerZ obsC1 := fun h => by
  have h2 := (h (by decide)).2
  revert h2
  decide

theorem setObstacle_of_no_attr (cfg : Config) (obs : Obstacle)
    (hattr : ∀ f ∈ visitedFrames cfg obs, hasLaneAttr f = false) :
    SetObstacleFeatureValues cfg obs = [] := by
  have hsamp : laneSamples cfg obs = [] := by
    unfold laneSamples
    rw [List.filter_eq_nil_iff]
    intro f hf
    simp [hattr f hf]
  unfold SetObstacleFeatureValues
  rw [if_pos (by rw [aggFinal_count, hsamp]; rfl)]

/-- C1 (amended): when no visited observation carries lane attributes
the aggregator returns the empty block, and `Evaluate` then sets the
probability of every candidate of a processed obstacle to exactly 0
(dispatching no model), rather than leaving the probabilities at their
prior values. -/
theorem evaluate_no_lane_attr (cfg : Config) (models : Models)
    (container : ℤ → Feature) (obs : Obstacle)
    (hattr : ∀ f ∈ visitedFrames cfg obs, hasLaneAttr f = false) :
    SetObstacleFeatureValues cfg obs = [] ∧
    ∀ li lg, obs.latest_feature.isInitialized = true →
      obs.latest_feature.lane = some li → li.lane_graph = some lg →
      lg.lane_sequence ≠ [] →
      (Evaluate cfg models container obs).1.laneSequences =
        lg.lane_sequence.map (fun s => { s with probability := 0 }) ∧
      (Evaluate cfg models container obs).2.1 =
        lg.lane_sequence.map (fun _ => none) := by
  have hempty := setObstacle_of_no_attr cfg obs hattr
  refine ⟨hempty, ?_⟩
  intro li lg h1 h2 h3 h4
  rw [evaluate_processed cfg models container obs li lg h1 h2 h3 h4]
  have heval : ∀ seq, evaluateSequence cfg models container obs seq =
      ({ seq with probability := 0 }, none) :=
    fun seq => evaluateSequence_of_empty_block cfg models container obs seq hempty
  constructor
  · rw [latest_lane_of_setSequences obs _ li lg h1 h2 h3]
    rw [List.map_map]
    exact List.map_congr_left (fun seq _ => by rw [Function.comp_apply, heval seq])
  · show (lg.lane_sequence.map
        (fun seq => evaluateSequence cfg models container obs seq)).map Prod.snd = _
    rw [List.map_map]
    exact List.map_congr_left (fun seq _ => by rw [Function.comp_apply, heval seq])

theorem evaluate_no_lane_attr_witness :
    SetObstacleFeatureValues cfgC3 obsC1 = [] ∧
    (Evaluate cfgC3 modelsC containerZ obsC1).1.laneSequences =
      [({ probability := 1 / 2 } : LaneSequence)].map
        (fun s => { s with probability := 0 }) ∧
    (Evaluate cfgC3 modelsC containerZ obsC1).2.1 =
      [({ probability := 1 / 2 } : LaneSequence)].map (fun _ => none) := by
  obtain ⟨ha, hb⟩ := evaluate_no_lane_attr cfgC3 modelsC containerZ obsC1 (by decide)
  exact ⟨ha, hb laneC1 ⟨[{ probability := 1 / 2 }]⟩ (by decide) rfl rfl (by decide)⟩

theorem getD_map_map {α β γ : Type} (l : List α) (g : α → β) (f : β → γ) (i : ℕ)
    (d : γ) (d' : α) (h : i < l.length) :
    ((l.map g).map f).getD i d = f (g (l.getD i d')) := by
  rw [getD_map_of_lt _ _ _ _ (g (l.getD i d')) (by simp [h]),
    getD_map_of_lt _ _ _ _ d' h]

theorem evaluateSequence_cases (cfg : Config) (models : Models)
    (container : ℤ → Feature) (obs : Obstacle) (seq : LaneSequence) :
    ((ExtractFeatureValues cfg container obs seq).1.length ≠ totalFeatureSize cfg →
      evaluateSequence cfg models container obs seq =
        ({ (ExtractFeatureValues cfg container obs seq).2 with probability := 0 },
          none)) ∧
    ((ExtractFeatureValues cfg container obs seq).1.length = totalFeatureSize cfg →
      cfg.offlineMode = true →
      evaluateSequence cfg models container obs seq =
        ((ExtractFeatureValues cfg container obs seq).2, none)) ∧
    ((ExtractFeatureValues cfg container obs seq).1.length = totalFeatureSize cfg →
      cfg.offlineMode = false →
      evaluateSequence cfg models container obs seq =
        ({ (ExtractFeatureValues cfg container obs seq).2 with
            probability :=
              (if seq.vehicle_on_lane then
                models.go ((ExtractFeatureValues cfg container obs seq).1.drop
                    (OBSTACLE_FEATURE_SIZE cfg + INTERACTION_FEATURE_SIZE))
                  ((ExtractFeatureValues cfg container obs seq).1.take
                    (OBSTACLE_FEATURE_SIZE cfg))
              else
                models.cutin ((ExtractFeatureValues cfg container obs seq).1.drop
                    (OBSTACLE_FEATURE_SIZE cfg + INTERACTION_FEATURE_SIZE))
                  ((ExtractFeatureValues cfg container obs seq).1.take
                    (OBSTACLE_FEATURE_SIZE cfg))).1
            time_to_lane_center :=
              (if seq.vehicle_on_lane then
                models.go ((ExtractFeatureValues cfg container obs seq).1.drop
                    (OBSTACLE_FEATURE_SIZE cfg + INTERACTION_FEATURE_SIZE))
                  ((ExtractFeatureValues cfg container obs seq).1.take
                    (OBSTACLE_FEATURE_SIZE cfg))
              else
                models.cutin ((ExtractFeatureValues cfg container obs seq).1.drop
                    (OBSTACLE_FEATURE_SIZE cfg + INTERACTION_FEATURE_SIZE))
                  ((ExtractFeatureValues cfg container obs seq).1.take
                    (OBSTACLE_FEATURE_SIZE cfg))).2 },
          some seq.vehicle_on_lane)) := by
  refine ⟨fun h => ?_, fun h hoff => ?_, fun h hoff => ?_⟩
  · unfold evaluateSequence
    rw [if_pos h]
  · unfold evaluateSequence
    rw [if_neg (fun hc => hc h), hoff]
    rfl
  · unfold evaluateSequence
    rw [if_neg (fun hc => hc h), hoff]
    rfl

/-- C6: in normal (online) mode, a candidate whose assembled vector has
the wrong length gets probability exactly 0 and no model call, while a
candidate with the correct length is dispatched to the model selected
by its on-lane flag and receives that model's two outputs verbatim. -/
theorem evaluate_dispatch (cfg : Config) (models : Models)
    (container : ℤ → Feature) (obs : Obstacle) (li : Lane) (lg : LaneGraph) (i : ℕ)
    (hoff : cfg.offlineMode = false)
    (h1 : obs.latest_feature.isInitialized = true)
    (h2 : obs.latest_feature.lane = some li)
    (h3 : li.lane_graph = some lg)
    (hi : i < lg.lane_sequence.length) :
    ((ExtractFeatureValues cfg container obs (lg.lane_sequence.getD i { })).1.length ≠
        totalFeatureSize cfg →
      ((Evaluate cfg models container obs).1.laneSequences.getD i { }).probability = 0 ∧
      (Evaluate cfg models container obs).2.1.getD i none = none) ∧
    ((ExtractFeatureValues cfg container obs (lg.lane_sequence.getD i { })).1.length =
        totalFeatureSize cfg →
      (Evaluate cfg models container obs).2.1.getD i none =
        some (lg.lane_sequence.getD i { }).vehicle_on_lane ∧
      ((Evaluate cfg models container obs).1.laneSequences.getD i { }).probability =
        (if (lg.lane_sequence.getD i { }).vehicle_on_lane then
          models.go ((ExtractFeatureValues cfg container obs
              (lg.lane_sequence.getD i { })).1.drop
              (OBSTACLE_FEATURE_SIZE cfg + INTERACTION_FEATURE_SIZE))
            ((ExtractFeatureValues cfg container obs
              (lg.lane_sequence.getD i { })).1.take (OBSTACLE_FEATURE_SIZE cfg))
        else
          models.cutin ((ExtractFeatureValues cfg container obs
              (lg.lane_sequence.getD i { })).1.drop
              (OBSTACLE_FEATURE_SIZE cfg + INTERACTION_FEATURE_SIZE))
            ((ExtractFeatureValues cfg container obs
              (lg.lane_sequence.getD i { })).1.take (OBSTACLE_FEATURE_SIZE cfg))).1 ∧
      ((Evaluate cfg models container obs).1.laneSequences.getD i { }).time_to_lane_center =
        (if (lg.lane_sequence.getD i { }).vehicle_on_lane then
          models.go ((ExtractFeatureValues cfg container obs
              (lg.lane_sequence.getD i { })).1.drop
              (OBSTACLE_FEATURE_SIZE cfg + INTERACTION_FEATURE_SIZE))
            ((ExtractFeatureValues cfg container obs
              (lg.lane_sequence.getD i { })).1.take (OBSTACLE_FEATURE_SIZE cfg))
        else
          models.cutin ((ExtractFeatureValues cfg container obs
              (lg.lane_sequence.getD i { })).1.drop
              (OBSTACLE_FEATURE_SIZE cfg + INTERACTION_FEATURE_SIZE))
            ((ExtractFeatureValues cfg container obs
              (lg.lane_sequence.getD i { })).1.take (OBSTACLE_FEATURE_SIZE cfg))).2) := by
  have h4 : lg.lane_sequence ≠ [] := by
    intro hc
    rw [hc] at hi
    simp at hi
  have hrw := evaluate_processed cfg models container obs li lg h1 h2 h3 h4
  have hseqs : (Evaluate cfg models container obs).1.laneSequences =
      (lg.lane_sequence.map
        (fun seq => evaluateSequence cfg models container obs seq)).map Prod.fst := by
    rw [hrw]
    exact latest_lane_of_setSequences obs _ li lg h1 h2 h3
  have hdisp : (Evaluate cfg models container obs).2.1 =
      (lg.lane_sequence.map
        (fun seq => evaluateSequence cfg models container obs seq)).map Prod.snd := by
    rw [hrw]
  constructor
  · intro hlen
    have he := (evaluateSequence_cases cfg models container obs
      (lg.lane_sequence.getD i { })).1 hlen
    constructor
    · rw [hseqs, getD_map_map lg.lane_sequence
        (fun seq => evaluateSequence cfg models container obs seq) Prod.fst i { } { } hi, he]
    · rw [hdisp, getD_map_map lg.lane_sequence
        (fun seq => evaluateSequence cfg models container obs seq) Prod.snd i none { } hi, he]
  · intro hlen
    have he := (evaluateSequence_cases cfg models container obs
      (lg.lane_sequence.getD i { })).2.2 hlen hoff
    refine ⟨?_, ?_, ?_⟩
    · rw [hdisp, getD_map_map lg.lane_sequence
        (fun seq => evaluateSequence cfg models container obs seq) Prod.snd i none { } hi, he]
    · rw [hseqs, getD_map_map lg.lane_sequence
        (fun seq => evaluateSequence cfg models container obs seq) Prod.fst i { } { } hi, he]
    · rw [hseqs, getD_map_map lg.lane_sequence
        (fun seq => evaluateSequence cfg models container obs seq) Prod.fst i { } { } hi, he]

theorem extract_total_form (cfg : Config) (container : ℤ → Feature)
    (obs : Obstacle) (seq : LaneSequence)
    (hlen : (ExtractFeatureValues cfg container obs seq).1.length =
      totalFeatureSize cfg) :
    ExtractFeatureValues cfg container obs seq =
      (SetObstacleFeatureValues cfg obs ++ SetInteractionFeatureValues cfg container seq ++
          SetLaneFeatureValues cfg obs seq,
        if cfg.offlineMode then
          SaveOfflineFeatures seq (SetObstacleFeatureValues cfg obs ++
            SetInteractionFeatureValues cfg container seq ++ SetLaneFeatureValues cfg obs seq)
        else seq) := by
  unfold ExtractFeatureValues at hlen ⊢
  by_cases h1 : (SetObstacleFeatureValues cfg obs).length ≠ OBSTACLE_FEATURE_SIZE cfg
  · rw [if_pos h1] at hlen
    exfalso
    rw [show (([], seq) : List ℚ × LaneSequence).1.length = 0 from rfl] at hlen
    unfold totalFeatureSize OBSTACLE_FEATURE_SIZE INTERACTION_FEATURE_SIZE at hlen
    omega
  · rw [if_neg h1] at hlen ⊢
    rw [not_not] at h1
    have h2 : ¬((SetInteractionFeatureValues cfg container seq).length ≠
        INTERACTION_FEATURE_SIZE) := by
      rw [interaction_length]
      exact fun hc => hc rfl
    rw [if_neg h2] at hlen ⊢
    by_cases h3 : (SetLaneFeatureValues cfg obs seq).length ≠
        SINGLE_LANE_FEATURE_SIZE * cfg.lanePoints
    · rw [if_pos h3] at hlen
      exfalso
      simp only [List.length_append, h1, interaction_length, totalFeatureSize,
        INTERACTION_FEATURE_SIZE] at hlen
      have hN : cfg.lanePoints = 0 := by
        unfold SINGLE_LANE_FEATURE_SIZE at hlen
        omega
      exact h3 (by rw [setLaneFeatureValues_zero cfg obs seq hN, hN]; rfl)
    · rw [if_neg h3]
      cases hof : cfg.offlineMode <;> rfl

/-- C8: in offline mode a candidate with a correct-length vector gets no
model call and keeps its probability and time fields, the whole
concatenated vector is appended onto its persisted feature record, and
once all candidates are processed the obstacle's latest observation is
inserted into the feature-output sink exactly once. -/
theorem evaluate_offline (cfg : Config) (models : Models)
    (container : ℤ → Feature) (obs : Obstacle) (li : Lane) (lg : LaneGraph) (i : ℕ)
    (hoff : cfg.offlineMode = true)
    (h1 : obs.latest_feature.isInitialized = true)
    (h2 : obs.latest_feature.lane = some li)
    (h3 : li.lane_graph = some lg)
    (hi : i < lg.lane_sequence.length)
    (hlen : (ExtractFeatureValues cfg container obs
      (lg.lane_sequence.getD i { })).1.length = totalFeatureSize cfg) :
    (Evaluate cfg models container obs).2.1.getD i none = none ∧
    ((Evaluate cfg models container obs).1.laneSequences.getD i { }).probability =
      (lg.lane_sequence.getD i { }).probability ∧
    ((Evaluate cfg models container obs).1.laneSequences.getD i { }).time_to_lane_center =
      (lg.lane_sequence.getD i { }).time_to_lane_center ∧
    ((Evaluate cfg models container obs).1.laneSequences.getD i { }).mlp_features =
      (lg.lane_sequence.getD i { }).mlp_features ++
        (ExtractFeatureValues cfg container obs (lg.lane_sequence.getD i { })).1 ∧
    (Evaluate cfg models container obs).2.2 =
      [(Evaluate cfg models container obs).1.latest_feature] := by
  have h4 : lg.lane_sequence ≠ [] := by
    intro hc
    rw [hc] at hi
    simp at hi
  have hrw := evaluate_processed cfg models container obs li lg h1 h2 h3 h4
  have hseqs : (Evaluate cfg models container obs).1.laneSequences =
      (lg.lane_sequence.map
        (fun seq => evaluateSequence cfg models container obs seq)).map Prod.fst := by
    rw [hrw]
    exact latest_lane_of_setSequences obs _ li lg h1 h2 h3
  have hdisp : (Evaluate cfg models container obs).2.1 =
      (lg.lane_sequence.map
        (fun seq => evaluateSequence cfg models container obs seq)).map Prod.snd := by
    rw [hrw]
  have he := (evaluateSequence_cases cfg models container obs
    (lg.lane_sequence.getD i { })).2.1 hlen hoff
  have hform := extract_total_form cfg container obs (lg.lane_sequence.getD i { }) hlen
  refine ⟨?_, ?_, ?_, ?_, ?_⟩
  · rw [hdisp, getD_map_map lg.lane_sequence
      (fun seq => evaluateSequence cfg models container obs seq) Prod.snd i none { } hi, he]
  · rw [hseqs, getD_map_map lg.lane_sequence
      (fun seq => evaluateSequence cfg models container obs seq) Prod.fst i { } { } hi, he,
      hform, hoff]
    rfl
  · rw [hseqs, getD_map_map lg.lane_sequence
      (fun seq => evaluateSequence cfg models container obs seq) Prod.fst i { } { } hi, he,
      hform, hoff]
    rfl
  · rw [hseqs, getD_map_map lg.lane_sequence
      (fun seq => evaluateSequence cfg models container obs seq) Prod.fst i { } { } hi, he,
      hform, hoff]
    rfl
  · rw [hrw, hoff]
    rfl

/-! ## Concrete dispatch scenarios -/

/-- Online configuration: no window frames, three lane points. -/
def cfgC6 : Config :=
  { W := 0, T := 1, doublePrecision := 1 / 1000, defaultS := 10, defaultL := 1,
    offlineMode := false, lanePoints := 3,
    w2o := idPointTransform, a2o := idAngleTransform }

/-- A candidate with enough lane points for a full feature vector. -/
def seqGood : LaneSequence :=
  { lane_segment := [⟨[lpA, lpB, lpC]⟩], vehicle_on_lane := true,
    probability := 1 / 2, time_to_lane_center := 1 / 4 }

/-- A candidate with no lane points: its lane block comes up short. -/
def seqBad : LaneSequence := { probability := 1 / 3 }

def laneC6 : Lane :=
  { lane_feature := some sampleLaneFeature, lane_graph := some ⟨[seqGood, seqBad]⟩ }

def frameC6 : Feature :=
  { position := some ⟨0, 0⟩
    velocity := some ⟨0, 0⟩
    acceleration := some ⟨0, 0⟩
    velocity_heading := some 0
    speed := 5
    lane := some laneC6 }

def obsC6 : Obstacle := { id := 7, history := [frameC6] }

theorem evaluate_dispatch_witness :
    (Evaluate cfgC6 modelsC containerZ obsC6).2.1.getD 0 none = some true ∧
    ((Evaluate cfgC6 modelsC containerZ obsC6).1.laneSequences.getD 0 { }).probability = 7 ∧
    ((Evaluate cfgC6 modelsC containerZ obsC6).1.laneSequences.getD 1 { }).probability = 0 ∧
    (Evaluate cfgC6 modelsC containerZ obsC6).2.1.getD 1 none = none := by
  have hgood := (evaluate_dispatch cfgC6 modelsC containerZ obsC6 laneC6
    ⟨[seqGood, seqBad]⟩ 0 rfl rfl rfl rfl (by decide)).2 (by decide)
  have hbad := (evaluate_dispatch cfgC6 modelsC containerZ obsC6 laneC6
    ⟨[seqGood, seqBad]⟩ 1 rfl rfl rfl rfl (by decide)).1 (by decide)
  exact ⟨hgood.1.trans (by decide), hgood.2.1.trans (by decide), hbad.1, hbad.2⟩

/-- Offline-mode configuration of the same scenario. -/
def cfgC8 : Config :=
  { W := 0, T := 1, doublePrecision := 1 / 1000, defaultS := 10, defaultL := 1,
    offlineMode := true, lanePoints := 3,
    w2o := idPointTransform, a2o := idAngleTransform }

def laneC8 : Lane :=
  { lane_feature := some sampleLaneFeature, lane_graph := some ⟨[seqGood]⟩ }

def frameC8 : Feature :=
  { position := some ⟨0, 0⟩
    velocity := some ⟨0, 0⟩
    acceleration := some ⟨0, 0⟩
    velocity_heading := some 0
    speed := 5
    lane := some laneC8 }

def obsC8 : Obstacle := { id := 9, history := [frameC8] }

theorem evaluate_offline_witness :
    (Evaluate cfgC8 modelsC containerZ obsC8).2.1.getD 0 none = none ∧
    ((Evaluate cfgC8 modelsC containerZ obsC8).1.laneSequences.getD 0 { }).probability =
      1 / 2 ∧
    ((Evaluate cfgC8 modelsC containerZ obsC8).1.laneSequences.getD 0
      { }).time_to_lane_center = 1 / 4 ∧
    ((Evaluate cfgC8 modelsC containerZ obsC8).1.laneSequences.getD 0 { }).mlp_features =
      seqGood.mlp_features ++ (ExtractFeatureValues cfgC8 containerZ obsC8 seqGood).1 ∧
    (Evaluate cfgC8 modelsC containerZ obsC8).2.2 =
      [(Evaluate cfgC8 modelsC containerZ obsC8).1.latest_feature] := by
  have h := evaluate_offline cfgC8 modelsC containerZ obsC8 laneC8 ⟨[seqGood]⟩ 0
    rfl rfl rfl rfl (by decide) (by decide)
  exact ⟨h.1, h.2.1.trans (by decide), h.2.2.1.trans (by decide), h.2.2.2.1, h.2.2.2.2⟩
